import Mathlib

/-!
# Jule runtime object model: `jule::Ref<T>`, `jule::Any` and `jule::Fn`

A shallow embedding of the reference-counted owning pointer (api/ref.hpp),
the type-erased dynamic value (api/any.hpp) and the closure wrapper
(api/fn.hpp) of the Jule C++ runtime, with an explicit heap, and the
properties of them that the specification states.

Conventions of the embedding

* An address is a natural number and `0` is `nullptr`.
* The heap holds the payload objects and the count cells and logs every
  `delete`. An address names one allocation: every successful allocation gets
  an address that was never handed out before. A `delete` of storage that is
  not allocated, like every other access to it, is undefined behaviour.
* `new (std::nothrow)` may fail: the heap carries the outcomes of the coming
  allocation attempts, so that every pattern of failures can be expressed.
* The preprocessor switches `__JULE_DISABLE__SAFETY` and
  `__JULE_DISABLE__REFERENCE_COUNTING` are the two fields of `Config`.
* A member function that mutates `this` returns the new `this` together with
  the new heap.
* The address of an argument object (`&function` in fn.hpp) is an input of
  the function that takes it.
-/

namespace jule

/-! ## Data model -/

/-- The two preprocessor switches that ref.hpp tests. -/
structure Config where
  /-- Value `true` stands for `#define __JULE_DISABLE__SAFETY`. -/
  disable_safety : Bool
  /-- Value `true` stands for `#define __JULE_DISABLE__REFERENCE_COUNTING`. -/
  disable_reference_counting : Bool
deriving DecidableEq, Repr

/-- Modelled from the spec: error.hpp is not among the sources. The error
messages that ref.hpp, any.hpp and fn.hpp pass to `jule::panic` are the
Invalid-Memory, the Allocation-Failed and the Incompatible-Type kind of the
specification's error taxonomy. -/
inductive Error where
  | ERROR_INVALID_MEMORY
  | ERROR_MEMORY_ALLOCATION_FAILED
  | ERROR_INCOMPATIBLE_TYPE
deriving DecidableEq, Repr

/-- Outcome of running a piece of the runtime: normal completion with a
result, a call of `jule::panic` (panic.hpp is not among the sources; by the
specification the fatal abort never returns), or C++ undefined behaviour (an
access through a pointer to storage that is not allocated). -/
inductive Exec (α : Type) where
  | ret (a : α)
  | panic (e : Error)
  | undefined
deriving DecidableEq, Repr

/-- The reference counting data delta value (ref.hpp, line 19). -/
def REFERENCE_DELTA : Int := 1

/-- Modelled from the spec: types.hpp is not among the sources and the
specification gives the counter no width; `jule::Uint` is taken as the
unsigned integer of a 64-bit platform, so a count cell holds a value below
`UINT_MODULUS` and arithmetic on it wraps. -/
def UINT_MODULUS : Nat := 2 ^ 64

/-- Conversion of a `jule::Uint` value to the signed `jule::Int` of the same
width (two's complement), as done by the return type of `add_ref` and
`drop_ref`. -/
def Uint_to_Int (n : Nat) : Int :=
  if n % UINT_MODULUS < UINT_MODULUS / 2 then ((n % UINT_MODULUS : Nat) : Int)
  else ((n % UINT_MODULUS : Nat) : Int) - (UINT_MODULUS : Int)

/-- The heap as the runtime sees it. -/
structure Heap (T : Type) where
  /-- The live payload objects. -/
  objs : Nat → Option T
  /-- The live count cells. -/
  cnts : Nat → Option Nat
  /-- The last address handed out; every later allocation gets a larger one. -/
  brk : Nat
  /-- Outcomes of the coming `new (std::nothrow)` attempts, first one first;
  `true` is success, and an exhausted list is failure. -/
  plan : List Bool
  /-- Log of the addresses passed to `delete`, oldest first. -/
  freed : List Nat

/-- The object `jule::Ref<T>`: the payload pointer and the count-cell pointer,
both `nullptr` by default (ref.hpp, lines 37-38). -/
structure Ref where
  alloc : Nat := 0
  ref : Nat := 0
deriving DecidableEq, Repr

/-! ## Heap primitives -/

/-- The expression `new (std::nothrow) jule::Uint`: the new cell's address, or
`nullptr` on failure. The cell's initial content is indeterminate in C++ and
always overwritten before it is read; it is `0` here. -/
def new_nothrow_Uint {T : Type} (h : Heap T) : Nat × Heap T :=
  match h.plan with
  | true :: rest =>
    (h.brk + 1,
      { h with cnts := Function.update h.cnts (h.brk + 1) (some 0),
               brk := h.brk + 1, plan := rest })
  | _ :: rest => (0, { h with plan := rest })
  | [] => (0, h)

/-- The expression `new (std::nothrow) T`: a default-constructed payload, or
`nullptr` on failure. -/
def new_nothrow_T {T : Type} [Inhabited T] (h : Heap T) : Nat × Heap T :=
  match h.plan with
  | true :: rest =>
    (h.brk + 1,
      { h with objs := Function.update h.objs (h.brk + 1) (some default),
               brk := h.brk + 1, plan := rest })
  | _ :: rest => (0, { h with plan := rest })
  | [] => (0, h)

/-- The statement `*p = v` on a count cell. -/
def store_Uint {T : Type} (p : Nat) (v : Nat) (h : Heap T) : Heap T :=
  { h with cnts := Function.update h.cnts p (some (v % UINT_MODULUS)) }

/-- The statement `*p = v` on a payload. -/
def store_T {T : Type} (p : Nat) (v : T) (h : Heap T) : Heap T :=
  { h with objs := Function.update h.objs p (some v) }

/-- The heap once the count cell at `p` has been given back: the cell is gone
and its address is logged; for `nullptr` the heap is as it was. -/
def released_Uint {T : Type} (p : Nat) (h : Heap T) : Heap T :=
  if p = 0 then h
  else { h with cnts := Function.update h.cnts p none, freed := h.freed ++ [p] }

/-- The heap once the payload at `p` has been given back: the payload is gone
and its address is logged; for `nullptr` the heap is as it was. -/
def released_T {T : Type} (p : Nat) (h : Heap T) : Heap T :=
  if p = 0 then h
  else { h with objs := Function.update h.objs p none, freed := h.freed ++ [p] }

/-- The statement `delete p` on a count-cell pointer: deleting `nullptr` does
nothing, deleting an allocated cell gives it back, and deleting a pointer to
storage that is not allocated (never allocated, or deleted before) is
undefined behaviour. -/
def delete_Uint {T : Type} (p : Nat) (h : Heap T) : Exec (Heap T) :=
  if p = 0 then .ret h
  else
    match h.cnts p with
    | some _ => .ret (released_Uint p h)
    | none => .undefined

/-- The statement `delete p` on a payload pointer: deleting `nullptr` does
nothing, deleting an allocated payload gives it back, and deleting a pointer
to storage that is not allocated (never allocated, or deleted before) is
undefined behaviour. -/
def delete_T {T : Type} (p : Nat) (h : Heap T) : Exec (Heap T) :=
  if p = 0 then .ret h
  else
    match h.objs p with
    | some _ => .ret (released_T p h)
    | none => .undefined

/-- Modelled from the spec: atomic.hpp is not among the sources. The call
`__jule_atomic_add_explicit(p, delta, order)` is the atomic fetch-and-add: it
adds `delta` to the cell with wrap-around and returns the value the cell held
before ("if the pre-decrement value equals the unit increment"). On a cell
that is not allocated the access is undefined behaviour. -/
def atomic_add_explicit {T : Type} (p : Nat) (delta : Int) (h : Heap T) :
    Exec (Nat × Heap T) :=
  match h.cnts p with
  | none => .undefined
  | some old =>
    let sum : Nat := (((old : Int) + delta) % (UINT_MODULUS : Int)).toNat
    .ret (old, { h with cnts := Function.update h.cnts p (some sum) })

/-- Modelled from the spec: atomic.hpp is not among the sources. The call
`__jule_atomic_load_explicit(p, order)` reads the cell. -/
def atomic_load_explicit {T : Type} (p : Nat) (h : Heap T) : Exec Nat :=
  match h.cnts p with
  | none => .undefined
  | some v => .ret v

/-! ## `jule::Ref<T>` -/

namespace Ref

/-- The overload `make(T *ptr)` (ref.hpp, lines 53-66). -/
def make_ptr {T : Type} (cfg : Config) (ptr : Nat) (h : Heap T) :
    Exec (Ref × Heap T) :=
  let buffer : Ref := {}
  if cfg.disable_reference_counting then
    .ret ({ buffer with alloc := ptr }, h)
  else
    let (r, h1) := new_nothrow_Uint h
    let buffer := { buffer with ref := r }
    if buffer.ref = 0 then .panic .ERROR_MEMORY_ALLOCATION_FAILED
    else
      let h2 := store_Uint buffer.ref REFERENCE_DELTA.toNat h1
      .ret ({ buffer with alloc := ptr }, h2)

/-- The overload `make(const T &instance, jule::Uint *ref)` (ref.hpp, lines
68-78). -/
def make_instance_ref {T : Type} [Inhabited T] (instance_ : T) (ref : Nat)
    (h : Heap T) : Exec (Ref × Heap T) :=
  let buffer : Ref := {}
  let (a, h1) := new_nothrow_T h
  let buffer := { buffer with alloc := a }
  if buffer.alloc = 0 then .panic .ERROR_MEMORY_ALLOCATION_FAILED
  else
    let h2 := store_T buffer.alloc instance_ h1
    .ret ({ buffer with ref := ref }, h2)

/-- The overload `make(const T &instance)` (ref.hpp, lines 80-91). -/
def make {T : Type} [Inhabited T] (cfg : Config) (instance_ : T) (h : Heap T) :
    Exec (Ref × Heap T) :=
  if cfg.disable_reference_counting then make_instance_ref instance_ 0 h
  else
    let (ref, h1) := new_nothrow_Uint h
    if ref = 0 then .panic .ERROR_MEMORY_ALLOCATION_FAILED
    else
      let h2 := store_Uint ref REFERENCE_DELTA.toNat h1
      make_instance_ref instance_ ref h2

/-- The member `drop_ref` (ref.hpp, lines 111-116): adds `-REFERENCE_DELTA` and
returns the previous value as a `jule::Int`. -/
def drop_ref {T : Type} (self : Ref) (h : Heap T) : Exec (Int × Heap T) :=
  match atomic_add_explicit self.ref (-REFERENCE_DELTA) h with
  | .ret (old, h1) => .ret (Uint_to_Int old, h1)
  | .panic e => .panic e
  | .undefined => .undefined

/-- The member `add_ref` (ref.hpp, lines 118-123): adds `REFERENCE_DELTA` and
returns the previous value as a `jule::Int`. -/
def add_ref {T : Type} (self : Ref) (h : Heap T) : Exec (Int × Heap T) :=
  match atomic_add_explicit self.ref REFERENCE_DELTA h with
  | .ret (old, h1) => .ret (Uint_to_Int old, h1)
  | .panic e => .panic e
  | .undefined => .undefined

/-- The member `get_ref_n` (ref.hpp, lines 125-128). -/
def get_ref_n {T : Type} (self : Ref) (h : Heap T) : Exec Nat :=
  atomic_load_explicit self.ref h

/-- The member `__get_copy` (ref.hpp, lines 103-109): the new `this`. -/
def __get_copy {T : Type} (self src : Ref) (h : Heap T) : Exec (Ref × Heap T) :=
  if src.ref ≠ 0 then
    match add_ref src h with
    | .ret (_, h1) => .ret ({ self with ref := src.ref, alloc := src.alloc }, h1)
    | .panic e => .panic e
    | .undefined => .undefined
  else
    .ret ({ self with ref := src.ref, alloc := src.alloc }, h)

/-- The copy constructor (ref.hpp, lines 96-97): a default-initialised object
that takes the copy. -/
def copy {T : Type} (src : Ref) (h : Heap T) : Exec (Ref × Heap T) :=
  __get_copy {} src h

/-- The member `drop` (ref.hpp, lines 133-150): the new `this`. The destructor
(lines 99-100) is the same call. -/
def drop {T : Type} (self : Ref) (h : Heap T) : Exec (Ref × Heap T) :=
  if self.ref = 0 then
    .ret ({ self with alloc := 0 }, h)
  else
    match drop_ref self h with
    | .ret (old, h1) =>
      if old ≠ REFERENCE_DELTA then
        .ret ({ self with ref := 0, alloc := 0 }, h1)
      else
        match delete_Uint self.ref h1 with
        | .ret h2 =>
          let self1 := { self with ref := 0 }
          match delete_T self1.alloc h2 with
          | .ret h3 => .ret ({ self1 with alloc := 0 }, h3)
          | .panic e => .panic e
          | .undefined => .undefined
        | .panic e => .panic e
        | .undefined => .undefined
    | .panic e => .panic e
    | .undefined => .undefined

/-- The comparison `operator==(const std::nullptr_t&)` (lines 198-199). -/
def eq_nullptr (self : Ref) : Bool := self.alloc == 0

/-- The comparison `operator!=(const std::nullptr_t&)` (lines 201-202). -/
def ne_nullptr (self : Ref) : Bool := !self.eq_nullptr

/-- The comparison `operator==(const jule::Ref<T>&)` (lines 204-205). -/
def eq (self ref : Ref) : Bool := self.alloc == ref.alloc

/-- The comparison `operator!=(const jule::Ref<T>&)` (lines 207-208). -/
def ne (self ref : Ref) : Bool := !self.eq ref

/-- The member `must_ok` (ref.hpp, lines 184-187). -/
def must_ok (self : Ref) : Exec Unit :=
  if self.eq_nullptr then .panic .ERROR_INVALID_MEMORY else .ret ()

/-- The test `#ifndef __JULE_DISABLE__SAFETY this->must_ok(); #endif` that opens
every dereference operation. -/
def safety_check (cfg : Config) (self : Ref) : Exec Unit :=
  if cfg.disable_safety then .ret () else self.must_ok

/-- The lvalue `*p` of a payload pointer: the storage it designates; forming
it for storage that is not allocated is undefined behaviour. -/
def lvalue {T : Type} (p : Nat) (h : Heap T) : Exec Nat :=
  match h.objs p with
  | some _ => .ret p
  | none => .undefined

/-- Reading the payload at `p`. -/
def load {T : Type} (p : Nat) (h : Heap T) : Exec T :=
  match h.objs p with
  | some v => .ret v
  | none => .undefined

/-- The member `operator->` (ref.hpp, lines 152-157): the payload pointer. -/
def arrow (cfg : Config) (self : Ref) : Exec Nat :=
  match safety_check cfg self with
  | .ret _ => .ret self.alloc
  | .panic e => .panic e
  | .undefined => .undefined

/-- The member `operator*` (ref.hpp, lines 159-164): the payload as a `T&`. -/
def star {T : Type} (cfg : Config) (self : Ref) (h : Heap T) : Exec Nat :=
  match safety_check cfg self with
  | .ret _ => lvalue self.alloc h
  | .panic e => .panic e
  | .undefined => .undefined

/-- The member `operator T` (ref.hpp, lines 166-171): a copy of the payload. -/
def to_T {T : Type} (cfg : Config) (self : Ref) (h : Heap T) : Exec T :=
  match safety_check cfg self with
  | .ret _ => load self.alloc h
  | .panic e => .panic e
  | .undefined => .undefined

/-- The member `operator T&` (ref.hpp, lines 173-178): the payload as a `T&`. -/
def to_T_ref {T : Type} (cfg : Config) (self : Ref) (h : Heap T) : Exec Nat :=
  match safety_check cfg self with
  | .ret _ => lvalue self.alloc h
  | .panic e => .panic e
  | .undefined => .undefined

/-- The member `get` (ref.hpp, lines 181-182). -/
def get {T : Type} (cfg : Config) (self : Ref) (h : Heap T) : Exec Nat :=
  to_T_ref cfg self h

/-- The statement `*self = v` of generated code: `operator*` and a store
through the `T&` it returns. -/
def write {T : Type} (cfg : Config) (self : Ref) (v : T) (h : Heap T) :
    Exec (Heap T) :=
  match star cfg self h with
  | .ret p => .ret (store_T p v h)
  | .panic e => .panic e
  | .undefined => .undefined

end Ref

/-- The function `new_ref<T>(void)` (ref.hpp, lines 221-223). -/
def new_ref_default {T : Type} [Inhabited T] (cfg : Config) (h : Heap T) :
    Exec (Ref × Heap T) :=
  Ref.make cfg (default : T) h

/-- The function `new_ref<T>(const T &init)` (ref.hpp, lines 225-232). -/
def new_ref {T : Type} [Inhabited T] (cfg : Config) (init : T) (h : Heap T) :
    Exec (Ref × Heap T) :=
  if cfg.disable_reference_counting then Ref.make_instance_ref init 0 h
  else Ref.make cfg init h

/-! ## Programs over several `Ref` objects

`operator=` takes its source by C++ reference, so the source may be the very
object that is assigned to. The `Ref` objects of a program are therefore kept
in a list and named by position. -/

/-- The `Ref` objects of a program and the heap. -/
structure State (T : Type) where
  vars : List Ref
  heap : Heap T

/-- The object at position `i`. -/
def State.var {T : Type} (s : State T) (i : Nat) : Ref := s.vars.getD i {}

/-- The declaration `Ref<T> b(vars[j]);`: the new object is added at the end. -/
def copy_construct {T : Type} (s : State T) (j : Nat) : Exec (State T) :=
  match Ref.copy (s.var j) s.heap with
  | .ret (b, h1) => .ret { vars := s.vars ++ [b], heap := h1 }
  | .panic e => .panic e
  | .undefined => .undefined

/-- The call `vars[i].drop()`. -/
def drop_var {T : Type} (s : State T) (i : Nat) : Exec (State T) :=
  match Ref.drop (s.var i) s.heap with
  | .ret (a, h1) => .ret { vars := s.vars.set i a, heap := h1 }
  | .panic e => .panic e
  | .undefined => .undefined

/-- The member `operator=` (ref.hpp, lines 189-196) in `vars[i] = vars[j]`.
The source is read again after `this->drop()`, as the C++ reference is. -/
def operator_assign {T : Type} (s : State T) (i j : Nat) : Exec (State T) :=
  if (s.var i).alloc ≠ 0 ∧ (s.var i).alloc = (s.var j).alloc then .ret s
  else
    match drop_var s i with
    | .ret s1 =>
      match Ref.__get_copy (s1.var i) (s1.var j) s1.heap with
      | .ret (a, h2) => .ret { vars := s1.vars.set i a, heap := h2 }
      | .panic e => .panic e
      | .undefined => .undefined
    | .panic e => .panic e
    | .undefined => .undefined

/-- Number of non-empty `Ref` objects that hold the count cell `c`. -/
def holders (c : Nat) (vars : List Ref) : Nat :=
  vars.countP (fun r => r.alloc ≠ 0 ∧ r.ref = c)

/-- An operation on the existing `Ref` objects of a program. -/
inductive RefOp where
  | copy (j : Nat)
  | assign (i j : Nat)
  | drop (i : Nat)
deriving DecidableEq, Repr

/-- One operation; an operation that names an object that does not exist is
not part of any program and is skipped. -/
def step {T : Type} (s : State T) : RefOp → Exec (State T)
  | .copy j => if j < s.vars.length then copy_construct s j else .ret s
  | .assign i j =>
    if i < s.vars.length ∧ j < s.vars.length then operator_assign s i j else .ret s
  | .drop i => if i < s.vars.length then drop_var s i else .ret s

/-- A sequence of operations, stopped by the first one that does not complete. -/
def run {T : Type} (s : State T) : List RefOp → Exec (State T)
  | [] => .ret s
  | op :: ops =>
    match step s op with
    | .ret s1 => run s1 ops
    | .panic e => .panic e
    | .undefined => .undefined

/-! ## Auxiliary definitions for the statements -/

/-- The heap `h` with the content of the count cell `c` replaced. -/
def Heap.put_cnt {T : Type} (h : Heap T) (c : Nat) (v : Option Nat) : Heap T :=
  { h with cnts := Function.update h.cnts c v }

/-- The first coming allocation attempt succeeds. -/
def Heap.first_ok {T : Type} (h : Heap T) : Prop := h.plan.head? = some true

/-- The second coming allocation attempt succeeds. -/
def Heap.second_ok {T : Type} (h : Heap T) : Prop := h.plan.tail.head? = some true

instance {T : Type} (h : Heap T) : Decidable h.first_ok := by
  unfold Heap.first_ok; infer_instance

instance {T : Type} (h : Heap T) : Decidable h.second_ok := by
  unfold Heap.second_ok; infer_instance

/-- A heap of integers with nothing allocated, for the examples. -/
def Heap.blank (plan : List Bool) : Heap Nat :=
  { objs := fun _ => none, cnts := fun _ => none, brk := 0, plan := plan, freed := [] }

/-- The default build: both switches undefined. -/
def Config.default_build : Config :=
  { disable_safety := false, disable_reference_counting := false }

/-- The heap right after `Ref::make(10)` on the blank heap: payload `10` at
address 2 and its count cell, holding `n`, at address 1. -/
def Heap.owned (n : Nat) : Heap Nat :=
  { objs := Function.update (fun _ => none) 2 (some 10),
    cnts := Function.update (fun _ => none) 1 (some n),
    brk := 2, plan := [], freed := [] }

/-- The state of the family of references that derive from one
`Ref::make(instance)` with payload `p` and count cell `c`, where `log` is the
log of deletions at the time of the call: every object is a copy (`p`, `c`) or
empty, and either some object holds the cell, the cell is allocated and holds
the number of these objects, the payload is allocated and nothing has been
deleted since; or no object holds the cell, and the cell and then the payload
have been deleted, once each. -/
def family_inv {T : Type} (p c : Nat) (log : List Nat) (s : State T) : Prop :=
  (∀ r ∈ s.vars, r = { alloc := p, ref := c } ∨ r = { alloc := 0, ref := 0 }) ∧
  ((0 < holders c s.vars ∧ s.heap.cnts c = some (holders c s.vars) ∧
      (s.heap.objs p).isSome = true ∧ s.heap.freed = log) ∨
    (holders c s.vars = 0 ∧ s.heap.cnts c = none ∧ s.heap.objs p = none ∧
      s.heap.freed = log ++ [c, p]))

/-! ## Programs that also create references -/

/-- A statement of a program over `Ref` objects: a declaration that creates a
reference from a value, or an operation on the existing objects. -/
inductive Stmt (T : Type) where
  /-- The declaration `auto r = Ref<T>::make(v);`. -/
  | make (v : T)
  /-- The declaration `auto r = Ref<T>::make(v, nullptr);`. -/
  | make_unmanaged (v : T)
  /-- The declaration `auto r = new_ref<T>(v);`. -/
  | new_ref (v : T)
  /-- The declaration `auto r = new_ref<T>();`. -/
  | new_ref_default
  /-- A copy construction, an assignment or a drop. -/
  | op (o : RefOp)

/-- The new object of a declaration is added at the end. -/
def declare {T : Type} (s : State T) : Exec (Ref × Heap T) → Exec (State T)
  | .ret (r, h1) => .ret { vars := s.vars ++ [r], heap := h1 }
  | .panic e => .panic e
  | .undefined => .undefined

/-- One statement. -/
def exec_stmt {T : Type} [Inhabited T] (cfg : Config) (s : State T) :
    Stmt T → Exec (State T)
  | .make v => declare s (Ref.make cfg v s.heap)
  | .make_unmanaged v => declare s (Ref.make_instance_ref v 0 s.heap)
  | .new_ref v => declare s (new_ref cfg v s.heap)
  | .new_ref_default => declare s (new_ref_default cfg s.heap)
  | .op o => step s o

/-- A program, stopped by the first statement that does not complete. -/
def exec {T : Type} [Inhabited T] (cfg : Config) (s : State T) :
    List (Stmt T) → Exec (State T)
  | [] => .ret s
  | st :: rest =>
    match exec_stmt cfg s st with
    | .ret s1 => exec cfg s1 rest
    | .panic e => .panic e
    | .undefined => .undefined

/-- The state of a program whose references all come from value-taking
creations, copies and assignments: every pointer held was handed out by the
allocator; a count cell is held only together with a payload and holds the
number of objects holding it; objects with the same payload have the same
count cell; every payload held is allocated. -/
def counted_inv {T : Type} (s : State T) : Prop :=
  (∀ r ∈ s.vars, r.alloc ≤ s.heap.brk ∧ r.ref ≤ s.heap.brk) ∧
  (∀ r ∈ s.vars, r.ref ≠ 0 →
    r.alloc ≠ 0 ∧ s.heap.cnts r.ref = some (holders r.ref s.vars)) ∧
  (∀ r1 ∈ s.vars, ∀ r2 ∈ s.vars, r1.alloc ≠ 0 → r1.alloc = r2.alloc → r1.ref = r2.ref) ∧
  (∀ r ∈ s.vars, r.alloc ≠ 0 → (s.heap.objs r.alloc).isSome = true)

/-! ## `jule::Any` (api/any.hpp)

The payload of an `Any` is a `void*`. The concrete C++ types that a program
boxes are named by codes `κ`; payloads of all of them are values of one type
`V`. The function template `new_type<T>` returns the address of one static
table per type `T`, so a pointer to a table is the code of its type, and the
null table pointer is `none`.

The member template `operator=(const T &expr)` (any.hpp, lines 148-158) has no
definition here: its statement `*this->data = expr` (line 153) applies unary
`*` to `data`, which is declared `void *` (line 78), so the template has no
well-formed instantiation and no behaviour to embed. A concrete value is given
to an existing object by the statement `a = jule::Any(expr)`, which runs the
constructor from a value, `operator=(const jule::Any&)` and the destructor of
the temporary. -/

/-- The concrete types of a program as `Any::DynamicType<T>` uses them. -/
structure Types (κ V : Type) where
  /-- The string `typeid(T).name()`. -/
  type_id : κ → String
  /-- The operator `==` of `T`. -/
  eq : κ → V → V → Bool
  /-- The function `jule::to_str` on `T`. -/
  to_str : κ → V → String
  /-- The default-constructed `T` of `new T`. -/
  init : κ → V

/-- A template argument `T` of `type_is`: the type `std::nullptr_t` (after
decay) or a concrete type. -/
inductive TypeArg (κ : Type) where
  | nullptr_t
  | concrete (k : κ)

/-- The object `jule::Any` (any.hpp, lines 78-79): the payload pointer and the
pointer to the type table, both null by default. -/
structure Any (κ : Type) where
  data : Nat := 0
  type : Option κ := none

namespace DynamicType

/-- The function `DynamicType<T>::type_id` (any.hpp, lines 28-29). -/
def type_id {κ V : Type} (ts : Types κ V) (k : κ) : String := ts.type_id k

/-- The function `DynamicType<T>::dealloc` (any.hpp, lines 31-32). -/
def dealloc {V : Type} (alloc : Nat) (h : Heap V) : Exec (Heap V) := delete_T alloc h

/-- The function `DynamicType<T>::eq` (any.hpp, lines 34-38). -/
def eq {κ V : Type} (ts : Types κ V) (k : κ) (alloc other : Nat) (h : Heap V) :
    Exec Bool :=
  match h.objs alloc, h.objs other with
  | some l, some r => .ret (ts.eq k l r)
  | _, _ => .undefined

/-- The function `DynamicType<T>::to_str` (any.hpp, lines 40-43). -/
def to_str {κ V : Type} (ts : Types κ V) (k : κ) (alloc : Nat) (h : Heap V) :
    Exec String :=
  match h.objs alloc with
  | some v => .ret (ts.to_str k v)
  | none => .undefined

/-- The function `DynamicType<T>::alloc_new_copy` (any.hpp, lines 45-52): the
address of the copy, or `nullptr` when the allocation fails. -/
def alloc_new_copy {κ V : Type} (ts : Types κ V) (k : κ) (data : Nat) (h : Heap V) :
    Exec (Nat × Heap V) :=
  let (heap, h1) := @new_nothrow_T V ⟨ts.init k⟩ h
  if heap = 0 then .ret (0, h1)
  else
    match h1.objs data with
    | some v => .ret (heap, store_T heap v h1)
    | none => .undefined

end DynamicType

namespace Any

/-- The comparison `operator==(std::nullptr_t)` (any.hpp, lines 216-217). -/
def eq_nullptr {κ : Type} (self : Any κ) : Bool := self.data == 0

/-- The comparison `operator!=(std::nullptr_t)` (any.hpp, lines 219-220). -/
def ne_nullptr {κ : Type} (self : Any κ) : Bool := !self.eq_nullptr

/-- The member `__assign<T>` (any.hpp, lines 117-127): the new `this`. -/
def __assign {κ V : Type} (ts : Types κ V) (k : κ) (expr : V) (self : Any κ)
    (h : Heap V) : Exec (Any κ × Heap V) :=
  let (alloc, h1) := @new_nothrow_T V ⟨ts.init k⟩ h
  if alloc = 0 then .panic .ERROR_MEMORY_ALLOCATION_FAILED
  else
    let h2 := store_T alloc expr h1
    let self1 := { self with data := alloc }
    .ret ({ self1 with type := some k }, h2)

/-- The constructor `Any(const T &expr)` (any.hpp, lines 84-86). -/
def from_value {κ V : Type} (ts : Types κ V) (k : κ) (expr : V) (h : Heap V) :
    Exec (Any κ × Heap V) :=
  __assign ts k expr {} h

/-- The member `__get_copy` (any.hpp, lines 103-114): the new `this`. A null
table pointer in a non-empty source is a call through a null pointer. -/
def __get_copy {κ V : Type} (ts : Types κ V) (self src : Any κ) (h : Heap V) :
    Exec (Any κ × Heap V) :=
  if src.eq_nullptr then .ret (self, h)
  else
    match src.type with
    | none => .undefined
    | some k =>
      match DynamicType.alloc_new_copy ts k src.data h with
      | .ret (new_heap, h1) =>
        if new_heap = 0 then .panic .ERROR_MEMORY_ALLOCATION_FAILED
        else
          let self1 := { self with data := new_heap }
          .ret ({ self1 with type := src.type }, h1)
      | .panic e => .panic e
      | .undefined => .undefined

/-- The copy constructor `Any(const jule::Any &src)` (any.hpp, lines 88-89). -/
def copy {κ V : Type} (ts : Types κ V) (src : Any κ) (h : Heap V) :
    Exec (Any κ × Heap V) :=
  __get_copy ts {} src h

/-- The move constructor `Any(const jule::Any &&src)` (any.hpp, lines 91-97):
the new object and the source after the call. -/
def move {κ : Type} (src : Any κ) : Any κ × Any κ :=
  let self : Any κ := {}
  let self := { self with data := src.data }
  let self := { self with type := src.type }
  (self, { src with data := 0 })

/-- The member `dealloc` (any.hpp, lines 129-135): the new `this`. The
destructor (lines 99-100) is the same call. -/
def dealloc {κ V : Type} (self : Any κ) (h : Heap V) : Exec (Any κ × Heap V) :=
  if self.data ≠ 0 then
    match self.type with
    | none => .undefined
    | some _ =>
      match DynamicType.dealloc self.data h with
      | .ret h1 =>
        let self1 := { self with type := none }
        .ret ({ self1 with data := 0 }, h1)
      | .panic e => .panic e
      | .undefined => .undefined
  else
    let self1 := { self with type := none }
    .ret ({ self1 with data := 0 }, h)

/-- The member `type_is<T>` (any.hpp, lines 137-146); `strcmp(...) == 0` is
equality of the two names. -/
def type_is {κ V : Type} (ts : Types κ V) (t : TypeArg κ) (self : Any κ) : Exec Bool :=
  match t with
  | .nullptr_t => .ret false
  | .concrete k =>
    if self.eq_nullptr then .ret false
    else
      match self.type with
      | none => .undefined
      | some kt => .ret (decide (DynamicType.type_id ts kt = DynamicType.type_id ts k))

end Any

namespace Any

/-- How the argument of `operator=(const jule::Any&)` is given: it is the
object assigned to, or it is another object. -/
inductive Source (κ : Type) where
  | this
  | other (src : Any κ)

/-- The object a `Source` designates, given the current `this`. -/
def Source.get {κ : Type} (self : Any κ) : Source κ → Any κ
  | .this => self
  | .other src => src

/-- The member `operator=(const jule::Any &src)` (any.hpp, lines 160-167): the
new `this`. The source is read again after `this->dealloc()`, as the C++
reference is. -/
def assign_any {κ V : Type} (ts : Types κ V) (self : Any κ) (src : Source κ)
    (h : Heap V) : Exec (Any κ × Heap V) :=
  if self.data ≠ 0 ∧ self.data = (src.get self).data then .ret (self, h)
  else
    match dealloc self h with
    | .ret (self1, h1) => __get_copy ts self1 (src.get self1) h1
    | .panic e => .panic e
    | .undefined => .undefined

/-- The member `operator=(const std::nullptr_t)` (any.hpp, lines 169-170). -/
def assign_nullptr {κ V : Type} (self : Any κ) (h : Heap V) : Exec (Any κ × Heap V) :=
  dealloc self h

/-- The statement `self = jule::Any(expr);`: the temporary is built by the
constructor `Any(const T&)` (lines 84-86), assigned by
`operator=(const jule::Any&)` (lines 160-167) and destroyed at the end of the
statement (lines 99-100). The result is the new `self`. -/
def assign_boxed {κ V : Type} (ts : Types κ V) (k : κ) (expr : V) (self : Any κ)
    (h : Heap V) : Exec (Any κ × Heap V) :=
  match from_value ts k expr h with
  | .ret (tmp, h1) =>
    match assign_any ts self (.other tmp) h1 with
    | .ret (self1, h2) =>
      match dealloc tmp h2 with
      | .ret (_, h3) => .ret (self1, h3)
      | .panic e => .panic e
      | .undefined => .undefined
    | .panic e => .panic e
    | .undefined => .undefined
  | .panic e => .panic e
  | .undefined => .undefined

/-- The member `operator T` (any.hpp, lines 172-185). -/
def to_T {κ V : Type} (ts : Types κ V) (cfg : Config) (k : κ) (self : Any κ)
    (h : Heap V) : Exec V :=
  if cfg.disable_safety then Ref.load self.data h
  else if self.eq_nullptr then .panic .ERROR_INVALID_MEMORY
  else
    match type_is ts (.concrete k) self with
    | .ret true => Ref.load self.data h
    | .ret false => .panic .ERROR_INCOMPATIBLE_TYPE
    | .panic e => .panic e
    | .undefined => .undefined

/-- The member `operator==(const T &expr)` (any.hpp, lines 187-189); the
right operand of `&&` is evaluated only when the left one is true. -/
def eq_value {κ V : Type} (ts : Types κ V) (cfg : Config) (k : κ) (expr : V)
    (self : Any κ) (h : Heap V) : Exec Bool :=
  match type_is ts (.concrete k) self with
  | .ret true =>
    match to_T ts cfg k self h with
    | .ret v => .ret (ts.eq k v expr)
    | .panic e => .panic e
    | .undefined => .undefined
  | .ret false => .ret false
  | .panic e => .panic e
  | .undefined => .undefined

/-- The member `operator!=(const T &expr)` (any.hpp, lines 191-194). -/
def ne_value {κ V : Type} (ts : Types κ V) (cfg : Config) (k : κ) (expr : V)
    (self : Any κ) (h : Heap V) : Exec Bool :=
  match eq_value ts cfg k expr self h with
  | .ret b => .ret (!b)
  | .panic e => .panic e
  | .undefined => .undefined

/-- The member `operator==(const jule::Any &other)` (any.hpp, lines 196-211);
`strcmp(...) != 0` is inequality of the two names. -/
def eq {κ V : Type} (ts : Types κ V) (self other : Any κ) (h : Heap V) : Exec Bool :=
  if self.data ≠ 0 ∧ self.data = other.data then .ret true
  else if self.eq_nullptr then .ret other.eq_nullptr
  else if other.eq_nullptr then .ret false
  else
    match self.type, other.type with
    | some ks, some ko =>
      if DynamicType.type_id ts ks ≠ DynamicType.type_id ts ko then .ret false
      else DynamicType.eq ts ks self.data other.data h
    | _, _ => .undefined

/-- The member `operator!=(const jule::Any &other)` (any.hpp, lines 213-214). -/
def ne {κ V : Type} (ts : Types κ V) (self other : Any κ) (h : Heap V) : Exec Bool :=
  match eq ts self other h with
  | .ret b => .ret (!b)
  | .panic e => .panic e
  | .undefined => .undefined

end Any

/-! ## `jule::Fn` (api/fn.hpp)

A signature `Function` is given by its argument type `α` and its result type
`β`. -/

/-- A value of the standard library's `std::function<Function>`: it holds no
target, or a pointer to a plain function of exactly the type `Function` (its
code address and what the code computes), or any other invocable, such as a
closure object with captured state. -/
inductive StdFunction (α β : Type) where
  | empty
  | fnptr (addr : Nat) (code : α → β)
  | closure (code : α → β)

/-- The conversion of a plain function pointer to `std::function`: a null
pointer gives the value that holds no target. -/
def StdFunction.of_pointer {α β : Type} (function : Nat) (code : α → β) :
    StdFunction α β :=
  if function = 0 then .empty else .fnptr function code

/-- The function `addr_of_fn` (fn.hpp, lines 115-123): `target<FnType*>()` is
not null exactly when the target is a plain function pointer. -/
def addr_of_fn {α β : Type} (f : StdFunction α β) : Nat :=
  match f with
  | .fnptr fn_ptr _ => fn_ptr
  | _ => 0

/-- The object `jule::Fn<Function>` (fn.hpp, lines 35-36). -/
structure Fn (α β : Type) where
  buffer : StdFunction α β
  _addr : Nat

namespace Fn

/-- The constructor `Fn(const std::function<Function> &function)` (fn.hpp,
lines 42-48); `loc` is the address `&function` of the object that the
argument refers to. -/
def from_function {α β : Type} (function : StdFunction α β) (loc : Nat) : Fn α β :=
  let _addr := addr_of_fn function
  let _addr := if _addr = 0 then loc else _addr
  { buffer := function, _addr := _addr }

/-- The constructor `Fn(const Function *function)` (fn.hpp, lines 50-56);
`code` is what the function at the address `function` computes. -/
def from_pointer {α β : Type} (function : Nat) (code : α → β) : Fn α β :=
  let buffer := StdFunction.of_pointer function code
  let _addr := addr_of_fn buffer
  let _addr := if _addr = 0 then function else _addr
  { buffer := buffer, _addr := _addr }

/-- The member `addr` (fn.hpp, lines 68-71). -/
def addr {α β : Type} (self : Fn α β) : Nat := self._addr

/-- The comparison `operator==(const Fn<Function>&)` (fn.hpp, lines 88-91). -/
def eq {α β : Type} (self fn : Fn α β) : Bool := self.addr == fn.addr

/-- The comparison `operator!=(const Fn<Function>&)` (fn.hpp, lines 93-96). -/
def ne {α β : Type} (self fn : Fn α β) : Bool := !self.eq fn

/-- The comparison `operator==(std::nullptr_t)` (fn.hpp, lines 98-101). -/
def eq_nullptr {α β : Type} (self : Fn α β) : Bool :=
  match self.buffer with
  | .empty => true
  | _ => false

/-- The comparison `operator!=(std::nullptr_t)` (fn.hpp, lines 103-106). -/
def ne_nullptr {α β : Type} (self : Fn α β) : Bool := !self.eq_nullptr

end Fn

/-! ## Sample types for the examples -/

/-- Payload values of the examples: integers, strings and floating-point
numbers, of which only "not a number" and the integral values are told
apart. -/
inductive SampleVal where
  | int (n : Int)
  | str (s : String)
  | f64 (x : Option Int)
deriving DecidableEq, Repr

/-- The concrete types of the examples. -/
inductive SampleType where
  | int_t
  | str_t
  | f64_t
deriving DecidableEq, Repr

/-- Equality of the sample floating-point type: "not a number" (`none`) is
equal to nothing, itself included. -/
def SampleVal.f64_eq : SampleVal → SampleVal → Bool
  | .f64 (some x), .f64 (some y) => x == y
  | _, _ => false

/-- The sample types as `DynamicType` sees them. -/
def Types.sample : Types SampleType SampleVal where
  type_id
    | .int_t => "i"
    | .str_t => "N4jule3StrE"
    | .f64_t => "d"
  eq
    | .f64_t => SampleVal.f64_eq
    | _ => fun l r => decide (l = r)
  to_str := fun _ v => reprStr v
  init
    | .int_t => .int 0
    | .str_t => .str ""
    | .f64_t => .f64 (some 0)

/-- A heap of sample values with nothing allocated. -/
def Heap.blank_any (plan : List Bool) : Heap SampleVal :=
  { objs := fun _ => none, cnts := fun _ => none, brk := 0, plan := plan, freed := [] }

/-- The heap after a successful `new (std::nothrow) T` whose payload has been
given the value `v`; `rest` are the outcomes of the later attempts. -/
def Heap.push_obj {V : Type} (h : Heap V) (v : V) (rest : List Bool) : Heap V :=
  { objs := Function.update h.objs (h.brk + 1) (some v), cnts := h.cnts,
    brk := h.brk + 1, plan := rest, freed := h.freed }

/-- What it is for `b`, in the heap `h1`, to be an independent copy of the
non-empty `a` that holds the value `v` of type `k`: `b` has the type table of
`a`, its own payload address, and a payload equal to `v`; `a` still unboxes to
`v`; and giving `b` another content afterwards leaves the payload of `a`, and
what `a` unboxes to, as they were: the statement `b = jule::Any(w)` for any
concrete value `w` (it completes, and `b` then unboxes to `w`, when the two
allocations it makes succeed, and panics when one of them fails), the
statement `b = nullptr`, and any store to the payload of `b`. -/
def Any.independent_copy {κ V : Type} (ts : Types κ V) (cfg : Config)
    (k : κ) (a : Any κ) (v : V) (b : Any κ) (h1 : Heap V) : Prop :=
  b.type = a.type ∧ b.data ≠ a.data ∧ b.data ≠ 0 ∧
  h1.objs b.data = some v ∧ h1.objs a.data = some v ∧
  Any.to_T ts cfg k b h1 = .ret v ∧ Any.to_T ts cfg k a h1 = .ret v ∧
  (∀ k2 w,
    (h1.first_ok ∧ h1.second_ok →
      ∃ b2 h2, Any.assign_boxed ts k2 w b h1 = .ret (b2, h2) ∧
        Any.to_T ts cfg k2 b2 h2 = .ret w ∧
        h2.objs a.data = some v ∧ Any.to_T ts cfg k a h2 = .ret v) ∧
    (¬ (h1.first_ok ∧ h1.second_ok) →
      Any.assign_boxed ts k2 w b h1 = .panic .ERROR_MEMORY_ALLOCATION_FAILED)) ∧
  (∃ b2 h2, Any.assign_nullptr b h1 = .ret (b2, h2) ∧ b2.data = 0 ∧
    h2.objs a.data = some v ∧ Any.to_T ts cfg k a h2 = .ret v) ∧
  (∀ w, (store_T b.data w h1).objs a.data = some v ∧
    Any.to_T ts cfg k a (store_T b.data w h1) = .ret v)

/-! ## `jule::Fn`: construction without invocable, invocation, assignment -/

/-- Outcome of invoking a wrapper: the result of the target, a call of
`jule::panic`, or the exception `std::bad_function_call` that the standard
library's `std::function` throws when it is invoked without target. -/
inductive CallOutcome (β : Type) where
  | ret (b : β)
  | panic (e : Error)
  | bad_function_call

/-- The comparison `buffer == nullptr` of the standard library: true exactly
when the `std::function` holds no target. -/
def StdFunction.eq_nullptr {α β : Type} : StdFunction α β → Bool
  | .empty => true
  | .fnptr _ _ => false
  | .closure _ => false

/-- The call `buffer(arguments...)` of the standard library. -/
def StdFunction.invoke {α β : Type} (f : StdFunction α β) (arguments : α) :
    CallOutcome β :=
  match f with
  | .empty => .bad_function_call
  | .fnptr _ code => .ret (code arguments)
  | .closure code => .ret (code arguments)

namespace Fn

/-- The constructor `Fn(void) = default` (fn.hpp, line 38): the buffer holds
no target and `_addr` is not initialised; `junk` is the content it happens to
have. -/
def default_construct {α β : Type} (junk : Nat) : Fn α β :=
  { buffer := .empty, _addr := junk }

/-- The constructor `Fn(std::nullptr_t) : Fn() {}` (fn.hpp, line 40). -/
def from_nullptr {α β : Type} (junk : Nat) : Fn α β := default_construct junk

/-- The copy constructor `Fn(const Fn<Function> &fn) = default` (fn.hpp, line
39): both members are copied. -/
def copy {α β : Type} (fn : Fn α β) : Fn α β :=
  { buffer := fn.buffer, _addr := fn._addr }

/-- The member `operator()` (fn.hpp, lines 58-66); the pack `arguments` is one
value of type `α`. -/
def call {α β : Type} (cfg : Config) (self : Fn α β) (arguments : α) : CallOutcome β :=
  if cfg.disable_safety = false ∧ self.buffer.eq_nullptr = true then
    .panic .ERROR_INVALID_MEMORY
  else
    self.buffer.invoke arguments

/-- The member `operator=(std::nullptr_t)` (fn.hpp, lines 73-76): the new
`this`. -/
def assign_nullptr {α β : Type} (self : Fn α β) : Fn α β :=
  { self with buffer := .empty }

/-- The member `operator=(const std::function<Function> &function)` (fn.hpp,
lines 78-81): the new `this`. -/
def assign_function {α β : Type} (self : Fn α β) (function : StdFunction α β) : Fn α β :=
  { self with buffer := function }

/-- The member `operator=(const Function &function)` (fn.hpp, lines 83-86):
the new `this`; `function` is the code address of the function referred to and
`code` what it computes. -/
def assign_plain {α β : Type} (self : Fn α β) (function : Nat) (code : α → β) : Fn α β :=
  { self with buffer := StdFunction.of_pointer function code }

end Fn

end jule

/-! ## Properties of `jule::Ref<T>` -/

namespace jule

/-! ### Arithmetic of the count cell -/

theorem UINT_MODULUS_pos : 1 < UINT_MODULUS := by
  unfold UINT_MODULUS; norm_num

/-- Adding `REFERENCE_DELTA` to a cell value, in `jule::Uint` arithmetic. -/
theorem wrap_add_delta (n : Nat) :
    (((n : Int) + REFERENCE_DELTA) % (UINT_MODULUS : Int)).toNat
      = (n + 1) % UINT_MODULUS := by
  unfold REFERENCE_DELTA UINT_MODULUS
  omega

/-- Adding `-REFERENCE_DELTA` to a cell value, in `jule::Uint` arithmetic. -/
theorem wrap_sub_delta (n : Nat) :
    (((n : Int) + -REFERENCE_DELTA) % (UINT_MODULUS : Int)).toNat
      = (n + (UINT_MODULUS - 1)) % UINT_MODULUS := by
  unfold REFERENCE_DELTA UINT_MODULUS
  omega

/-- The signed view of a cell value is `REFERENCE_DELTA` exactly for `1`. -/
theorem Uint_to_Int_eq_delta (n : Nat) (hn : n < UINT_MODULUS) :
    Uint_to_Int n = REFERENCE_DELTA ↔ n = 1 := by
  unfold Uint_to_Int REFERENCE_DELTA UINT_MODULUS at *
  split <;> omega

/-! ### The counter operations on an allocated cell -/

theorem add_ref_live {T : Type} (r : Ref) (h : Heap T) (n : Nat)
    (hc : h.cnts r.ref = some n) :
    Ref.add_ref r h = .ret (Uint_to_Int n,
      h.put_cnt r.ref (some ((n + 1) % UINT_MODULUS))) := by
  simp [Ref.add_ref, atomic_add_explicit, hc, wrap_add_delta, Heap.put_cnt]

theorem drop_ref_live {T : Type} (r : Ref) (h : Heap T) (n : Nat)
    (hc : h.cnts r.ref = some n) :
    Ref.drop_ref r h = .ret (Uint_to_Int n,
      h.put_cnt r.ref (some ((n + (UINT_MODULUS - 1)) % UINT_MODULUS))) := by
  simp [Ref.drop_ref, atomic_add_explicit, hc, wrap_sub_delta, Heap.put_cnt]

/-- Copy from a source without count cell: the heap is not touched. -/
theorem get_copy_uncounted {T : Type} (self src : Ref) (h : Heap T)
    (hr : src.ref = 0) :
    Ref.__get_copy self src h = .ret ({ alloc := src.alloc, ref := src.ref }, h) := by
  simp [Ref.__get_copy, hr]

/-- Copy from a source with an allocated count cell. -/
theorem get_copy_counted {T : Type} (self src : Ref) (h : Heap T) (n : Nat)
    (hr : src.ref ≠ 0) (hc : h.cnts src.ref = some n) :
    Ref.__get_copy self src h = .ret ({ alloc := src.alloc, ref := src.ref },
      h.put_cnt src.ref (some ((n + 1) % UINT_MODULUS))) := by
  simp [Ref.__get_copy, hr, add_ref_live _ _ _ hc]

/-- Drop of a reference without count cell: the heap is not touched. -/
theorem drop_uncounted {T : Type} (self : Ref) (h : Heap T) (hr : self.ref = 0) :
    Ref.drop self h = .ret ({ alloc := 0, ref := 0 }, h) := by
  simp [Ref.drop, hr]

/-- Drop by the last owner. -/
theorem drop_last {T : Type} (self : Ref) (h : Heap T) (hr : self.ref ≠ 0)
    (hc : h.cnts self.ref = some 1)
    (ha : self.alloc = 0 ∨ (h.objs self.alloc).isSome = true) :
    Ref.drop self h = .ret ({ alloc := 0, ref := 0 },
      released_T self.alloc (released_Uint self.ref (h.put_cnt self.ref (some 0)))) := by
  have h1 : Uint_to_Int 1 = REFERENCE_DELTA :=
    (Uint_to_Int_eq_delta 1 UINT_MODULUS_pos).2 rfl
  have h2 : (1 + (UINT_MODULUS - 1)) % UINT_MODULUS = 0 := by
    unfold UINT_MODULUS; norm_num
  have hd : delete_Uint self.ref (h.put_cnt self.ref (some 0))
      = .ret (released_Uint self.ref (h.put_cnt self.ref (some 0))) := by
    simp [delete_Uint, hr, Heap.put_cnt]
  have ht : delete_T self.alloc (released_Uint self.ref (h.put_cnt self.ref (some 0)))
      = .ret (released_T self.alloc
          (released_Uint self.ref (h.put_cnt self.ref (some 0)))) := by
    rcases ha with ha | ha
    · simp [delete_T, released_T, ha]
    · by_cases h0 : self.alloc = 0
      · simp [delete_T, released_T, h0]
      · obtain ⟨v, hv⟩ := Option.isSome_iff_exists.1 ha
        simp [delete_T, h0, released_Uint, hr, Heap.put_cnt, hv]
  simp [Ref.drop, hr, drop_ref_live _ _ _ hc, h1, h2, hd, ht]

/-- Drop while another owner remains. -/
theorem drop_shared {T : Type} (self : Ref) (h : Heap T) (n : Nat)
    (hr : self.ref ≠ 0) (hc : h.cnts self.ref = some n) (hn : n < UINT_MODULUS)
    (h1 : n ≠ 1) :
    Ref.drop self h = .ret ({ alloc := 0, ref := 0 },
      h.put_cnt self.ref (some ((n + (UINT_MODULUS - 1)) % UINT_MODULUS))) := by
  have h2 : Uint_to_Int n ≠ REFERENCE_DELTA := fun e =>
    h1 ((Uint_to_Int_eq_delta n hn).1 e)
  simp [Ref.drop, hr, drop_ref_live _ _ _ hc, h2]

theorem wrap_pred (n : Nat) (hn : n < UINT_MODULUS) (h1 : 1 ≤ n) :
    (n + (UINT_MODULUS - 1)) % UINT_MODULUS = n - 1 := by
  unfold UINT_MODULUS at *; omega

theorem wrap_succ (n : Nat) (hn : n + 1 < UINT_MODULUS) :
    (n + 1) % UINT_MODULUS = n + 1 := Nat.mod_eq_of_lt hn

/-! ### C2: `Ref::make(const T&)` and `new_ref(const T&)` -/

/-- C2: with reference counting enabled, when the count-cell allocation and
the payload allocation both succeed, `Ref::make(v)` and `new_ref(v)` return
the same reference `r`: it is non-empty (unequal to `nullptr`), its count cell
and its payload are the two allocations just made, the count cell holds
exactly `REFERENCE_DELTA = 1`, and every dereference of `r` yields `v`; when
either allocation fails both calls panic with the memory-allocation-failed
error instead of returning. -/
theorem make_owned_spec {T : Type} [Inhabited T] (cfg : Config) (v : T) (h : Heap T)
    (hrc : cfg.disable_reference_counting = false) :
    (h.first_ok ∧ h.second_ok →
      ∃ r h1, Ref.make cfg v h = .ret (r, h1) ∧ new_ref cfg v h = .ret (r, h1) ∧
        r.ne_nullptr = true ∧ r.eq_nullptr = false ∧
        r.ref = h.brk + 1 ∧ r.alloc = h.brk + 2 ∧
        h1.cnts r.ref = some 1 ∧ (1 : Int) = REFERENCE_DELTA ∧
        h1.objs r.alloc = some v ∧
        Ref.to_T cfg r h1 = .ret v ∧
        Ref.star cfg r h1 = .ret r.alloc ∧ Ref.get cfg r h1 = .ret r.alloc ∧
        Ref.arrow cfg r = .ret r.alloc ∧ Ref.load r.alloc h1 = .ret v) ∧
    (¬ (h.first_ok ∧ h.second_ok) →
      Ref.make cfg v h = .panic .ERROR_MEMORY_ALLOCATION_FAILED ∧
      new_ref cfg v h = .panic .ERROR_MEMORY_ALLOCATION_FAILED) := by
  obtain ⟨objs, cnts, brk, plan, freed⟩ := h
  obtain ⟨sf, rc⟩ := cfg
  simp only at hrc
  subst hrc
  have hM : (1 : Nat) % UINT_MODULUS = 1 := Nat.mod_eq_of_lt UINT_MODULUS_pos
  rcases plan with _ | ⟨b1, _ | ⟨b2, rest⟩⟩
  · simp [Heap.first_ok, Heap.second_ok, Ref.make, new_ref, new_nothrow_Uint]
  · cases b1 <;>
      simp [Heap.first_ok, Heap.second_ok, Ref.make, new_ref, new_nothrow_Uint,
        Ref.make_instance_ref, new_nothrow_T, store_Uint]
  · cases b1 <;> cases b2 <;> cases sf <;>
      simp [Heap.first_ok, Heap.second_ok, Ref.make, new_ref, new_nothrow_Uint,
        Ref.make_instance_ref, new_nothrow_T, store_Uint, store_T, REFERENCE_DELTA,
        Ref.ne_nullptr, Ref.eq_nullptr, Ref.to_T, Ref.star, Ref.get, Ref.to_T_ref,
        Ref.arrow, Ref.load, Ref.lvalue, Ref.safety_check, Ref.must_ok, hM]
    all_goals
      refine ⟨_, _, ⟨rfl, rfl⟩, ?_⟩
      simp

/-- C2 at a concrete input: `make(10)` on a heap where two allocations
succeed. -/
theorem make_owned_spec_witness :
    Config.default_build.disable_reference_counting = false ∧
    (Heap.blank [true, true]).first_ok ∧ (Heap.blank [true, true]).second_ok ∧
    ∃ r h1, Ref.make Config.default_build 10 (Heap.blank [true, true]) = .ret (r, h1) ∧
      r = { alloc := 2, ref := 1 } ∧ h1.cnts 1 = some 1 ∧
      Ref.to_T Config.default_build r h1 = .ret 10 := by
  have hw := (make_owned_spec Config.default_build (10 : Nat)
    (Heap.blank [true, true]) rfl).1 ⟨by decide, by decide⟩
  obtain ⟨r, h1, hm, -, -, -, hr, ha, hc, -, -, ht, -⟩ := hw
  refine ⟨rfl, by decide, by decide, r, h1, hm, ?_, ?_, ht⟩
  · cases r; simp_all [Heap.blank]
  · simpa [hr, Heap.blank] using hc

/-! ### C3: copy construction -/

theorem var_append_last {T : Type} (s : State T) (b : Ref) (h1 : Heap T) :
    State.var { vars := s.vars ++ [b], heap := h1 } s.vars.length = b := by
  simp [State.var, List.getD_eq_getElem?_getD]

theorem first_second_ok {T : Type} (h : Heap T) (h1 : h.first_ok) (h2 : h.second_ok) :
    ∃ rest, h.plan = true :: true :: rest := by
  unfold Heap.first_ok at h1
  unfold Heap.second_ok at h2
  rcases hp : h.plan with _ | ⟨b1, _ | ⟨b2, rest⟩⟩ <;> simp_all

/-- The result of `Ref::make(v)` when counting is enabled and both allocations
succeed. -/
theorem make_counted_ok {T : Type} [Inhabited T] (cfg : Config) (v : T) (h : Heap T)
    (rest : List Bool) (hrc : cfg.disable_reference_counting = false)
    (hp : h.plan = true :: true :: rest) :
    Ref.make cfg v h = .ret ({ alloc := h.brk + 2, ref := h.brk + 1 },
      { objs := Function.update h.objs (h.brk + 2) (some v),
        cnts := Function.update h.cnts (h.brk + 1) (some 1),
        brk := h.brk + 2, plan := rest, freed := h.freed }) := by
  have hM : (1 : Nat) % UINT_MODULUS = 1 := Nat.mod_eq_of_lt UINT_MODULUS_pos
  simp [Ref.make, hrc, new_nothrow_Uint, hp, Ref.make_instance_ref, new_nothrow_T,
    store_Uint, store_T, REFERENCE_DELTA, hM]

theorem to_T_live {T : Type} (cfg : Config) (r : Ref) (h : Heap T) (v : T)
    (ha : r.alloc ≠ 0) (ho : h.objs r.alloc = some v) :
    Ref.to_T cfg r h = .ret v := by
  cases hs : cfg.disable_safety <;>
    simp [Ref.to_T, Ref.safety_check, Ref.must_ok, Ref.eq_nullptr, Ref.load, hs, ha, ho]

theorem star_live {T : Type} (cfg : Config) (r : Ref) (h : Heap T) (v : T)
    (ha : r.alloc ≠ 0) (ho : h.objs r.alloc = some v) :
    Ref.star cfg r h = .ret r.alloc := by
  cases hs : cfg.disable_safety <;>
    simp [Ref.star, Ref.safety_check, Ref.must_ok, Ref.eq_nullptr, Ref.lvalue, hs, ha, ho]

theorem write_live {T : Type} (cfg : Config) (r : Ref) (h : Heap T) (v w : T)
    (ha : r.alloc ≠ 0) (ho : h.objs r.alloc = some v) :
    Ref.write cfg r w h = .ret (store_T r.alloc w h) := by
  simp [Ref.write, star_live cfg r h v ha ho]

/-! ### C5: two owners of one payload -/

/-- C5: with reference counting enabled and both allocations successful, let
`a = Ref::make(v)` and `b` a copy of `a`. Then `a == b`; a value `w` written
through `a` is read back through `b`; after `drop(a)` nothing has been freed,
the payload and the count cell are still allocated (the cell holding 1), `b`
is non-empty and still dereferences to `w`; after `drop(b)` as well, the
deletions made are exactly the count cell and then the payload, once each,
both are gone from the heap, and a further drop of either object (as its
destructor makes) changes nothing. -/
theorem shared_payload_scenario {T : Type} [Inhabited T] (cfg : Config) (v w : T)
    (h0 : Heap T) (hrc : cfg.disable_reference_counting = false)
    (hp1 : h0.first_ok) (hp2 : h0.second_ok) :
    ∃ a b a1 b1 h1 h2 h3 h4 h5,
      Ref.make cfg v h0 = .ret (a, h1) ∧
      Ref.copy a h1 = .ret (b, h2) ∧
      a.eq b = true ∧ b.eq a = true ∧
      Ref.write cfg a w h2 = .ret h3 ∧
      Ref.to_T cfg b h3 = .ret w ∧
      Ref.drop a h3 = .ret (a1, h4) ∧
      h4.freed = h0.freed ∧ h4.objs a.alloc = some w ∧ h4.cnts a.ref = some 1 ∧
      b.ne_nullptr = true ∧ Ref.to_T cfg b h4 = .ret w ∧
      Ref.drop b h4 = .ret (b1, h5) ∧
      h5.freed = h0.freed ++ [a.ref, a.alloc] ∧ a.ref ≠ a.alloc ∧
      h5.objs a.alloc = none ∧ h5.cnts a.ref = none ∧
      a1 = { alloc := 0, ref := 0 } ∧ b1 = { alloc := 0, ref := 0 } ∧
      Ref.drop a1 h5 = .ret (a1, h5) ∧ Ref.drop b1 h5 = .ret (b1, h5) := by
  obtain ⟨rest, hp⟩ := first_second_ok h0 hp1 hp2
  have hM2 : (1 + 1) % UINT_MODULUS = 2 := by unfold UINT_MODULUS; norm_num
  have hM1 : (2 + (UINT_MODULUS - 1)) % UINT_MODULUS = 1 := by
    unfold UINT_MODULUS; norm_num
  have h2lt : 2 < UINT_MODULUS := by unfold UINT_MODULUS; norm_num
  let a : Ref := { alloc := h0.brk + 2, ref := h0.brk + 1 }
  let h1 : Heap T :=
    { objs := Function.update h0.objs (h0.brk + 2) (some v),
      cnts := Function.update h0.cnts (h0.brk + 1) (some 1),
      brk := h0.brk + 2, plan := rest, freed := h0.freed }
  let h2 : Heap T := h1.put_cnt a.ref (some ((1 + 1) % UINT_MODULUS))
  let h3 : Heap T := store_T a.alloc w h2
  let h4 : Heap T := h3.put_cnt a.ref (some ((2 + (UINT_MODULUS - 1)) % UINT_MODULUS))
  let h5 : Heap T := released_T a.alloc (released_Uint a.ref (h4.put_cnt a.ref (some 0)))
  have ha : a.alloc ≠ 0 := by simp [a]
  have hr : a.ref ≠ 0 := by simp [a]
  have c1 : h1.cnts a.ref = some 1 := by simp [h1, a]
  have o2 : h2.objs a.alloc = some v := by simp [h2, h1, a, Heap.put_cnt]
  have o3 : h3.objs a.alloc = some w := by simp [h3, store_T]
  have c3 : h3.cnts a.ref = some 2 := by simp [h3, h2, store_T, Heap.put_cnt, hM2]
  have o4 : h4.objs a.alloc = some w := by simp [h4, Heap.put_cnt, o3]
  have c4 : h4.cnts a.ref = some 1 := by simp [h4, Heap.put_cnt, hM1]
  refine ⟨a, a, { alloc := 0, ref := 0 }, { alloc := 0, ref := 0 }, h1, h2, h3, h4, h5,
    make_counted_ok cfg v h0 rest hrc hp, get_copy_counted _ a h1 1 hr c1,
    by simp [Ref.eq], by simp [Ref.eq], write_live cfg a h2 v w ha o2,
    to_T_live cfg a h3 w ha o3, drop_shared a h3 2 hr c3 h2lt (by decide), ?_, o4, c4,
    by simp [Ref.ne_nullptr, Ref.eq_nullptr, a], to_T_live cfg a h4 w ha o4,
    drop_last a h4 hr c4 (Or.inr (by simp [o4])), ?_, by simp [a], ?_, ?_, rfl, rfl,
    drop_uncounted _ _ rfl, drop_uncounted _ _ rfl⟩
  · simp [h4, h3, h2, h1, store_T, Heap.put_cnt]
  · simp [h5, h4, h3, h2, h1, a, store_T, Heap.put_cnt, released_T, released_Uint]
  · simp [h5, a, released_T, released_Uint]
  · simp [h5, a, released_T, released_Uint, Heap.put_cnt]

/-- C5 at the scenario of the specification: `r1 = make(10)`, `r2` a copy,
`*r1 = 20`; `*r2` reads 20 before and after `drop(r1)`, and `drop(r2)` then
frees the count cell 1 and the payload 2. -/
theorem shared_payload_scenario_witness :
    Config.default_build.disable_reference_counting = false ∧
    (Heap.blank [true, true]).first_ok ∧ (Heap.blank [true, true]).second_ok ∧
    ∃ r1 r2 d1 d2 h1 h2 h3 h4 h5,
      Ref.make Config.default_build 10 (Heap.blank [true, true]) = .ret (r1, h1) ∧
      Ref.copy r1 h1 = .ret (r2, h2) ∧
      Ref.write Config.default_build r1 20 h2 = .ret h3 ∧
      Ref.to_T Config.default_build r2 h3 = .ret 20 ∧
      Ref.drop r1 h3 = .ret (d1, h4) ∧
      Ref.to_T Config.default_build r2 h4 = .ret 20 ∧
      Ref.drop r2 h4 = .ret (d2, h5) ∧
      h5.freed = (Heap.blank [true, true]).freed ++ [r1.ref, r1.alloc] := by
  obtain ⟨a, b, a1, b1, h1, h2, h3, h4, h5, e1, e2, -, -, e3, e4, e5, -, -, -, -, e6,
      e7, e8, -⟩ :=
    shared_payload_scenario Config.default_build (10 : Nat) 20 (Heap.blank [true, true])
      rfl (by decide) (by decide)
  exact ⟨rfl, by decide, by decide, a, b, a1, b1, h1, h2, h3, h4, h5, e1, e2, e3, e4, e5,
    e6, e7, e8⟩

/-! ### C9: dereference with safety checks -/

/-- C9: with safety checks enabled, each of `operator->`, `operator*`,
`operator T`, `operator T&` and `get` panics with `ERROR_INVALID_MEMORY` if
and only if the payload pointer is null. On a non-empty reference
`operator->` returns the payload pointer, and when the payload `v` is
allocated `operator*`, `operator T&` and `get` return the payload's storage
and `operator T` returns `v` itself; no default value of `T` is involved. -/
theorem deref_checked_spec {T : Type} (cfg : Config) (r : Ref) (h : Heap T)
    (hs : cfg.disable_safety = false) :
    (Ref.arrow cfg r = .panic .ERROR_INVALID_MEMORY ↔ r.alloc = 0) ∧
    (Ref.star cfg r h = .panic .ERROR_INVALID_MEMORY ↔ r.alloc = 0) ∧
    (Ref.to_T cfg r h = .panic .ERROR_INVALID_MEMORY ↔ r.alloc = 0) ∧
    (Ref.to_T_ref cfg r h = .panic .ERROR_INVALID_MEMORY ↔ r.alloc = 0) ∧
    (Ref.get cfg r h = .panic .ERROR_INVALID_MEMORY ↔ r.alloc = 0) ∧
    (r.eq_nullptr = true ↔ r.alloc = 0) ∧
    (r.alloc ≠ 0 → Ref.arrow cfg r = .ret r.alloc) ∧
    (∀ v, r.alloc ≠ 0 → h.objs r.alloc = some v →
      Ref.star cfg r h = .ret r.alloc ∧ Ref.to_T cfg r h = .ret v ∧
      Ref.to_T_ref cfg r h = .ret r.alloc ∧ Ref.get cfg r h = .ret r.alloc ∧
      Ref.load r.alloc h = .ret v) := by
  by_cases ha : r.alloc = 0
  · simp [Ref.arrow, Ref.star, Ref.to_T, Ref.to_T_ref, Ref.get, Ref.safety_check,
      Ref.must_ok, Ref.eq_nullptr, hs, ha]
  · cases ho : h.objs r.alloc <;>
      simp [Ref.arrow, Ref.star, Ref.to_T, Ref.to_T_ref, Ref.get, Ref.safety_check,
        Ref.must_ok, Ref.eq_nullptr, Ref.lvalue, Ref.load, hs, ha, ho]

/-- C9 at concrete inputs: the empty reference panics, the owner of payload
`10` reads `10`. -/
theorem deref_checked_spec_witness :
    Config.default_build.disable_safety = false ∧
    Ref.to_T Config.default_build {} (Heap.owned 1) = .panic .ERROR_INVALID_MEMORY ∧
    Ref.to_T Config.default_build { alloc := 2, ref := 1 } (Heap.owned 1) = .ret 10 :=
  ⟨rfl,
    (deref_checked_spec Config.default_build {} (Heap.owned 1) rfl).2.2.1.2 rfl,
    ((deref_checked_spec Config.default_build { alloc := 2, ref := 1 } (Heap.owned 1)
      rfl).2.2.2.2.2.2.2 10 (by decide) (by simp [Heap.owned])).2.1⟩

/-! ### C10: unmanaged references -/

/-- C10: for every value `v`, when the payload allocation succeeds
`Ref::make(v, nullptr)` returns a non-empty reference without count cell that
dereferences to `v`, and it touches no count cell and frees nothing (when the
allocation fails it panics). For every reference `u` without count cell and
every heap: the copy of `u` has no count cell and the payload address of `u`,
and the heap is returned as it was, so no counter is read or written; and
`drop(u)` leaves `u` empty and the heap as it was, so the payload is not
freed. With `__JULE_DISABLE__REFERENCE_COUNTING` defined, `Ref::make(v)` and
`new_ref(v)` are this same call. -/
theorem unmanaged_spec {T : Type} [Inhabited T] (cfg : Config) (v : T) (h : Heap T) :
    (h.first_ok →
      ∃ r h1, Ref.make_instance_ref v 0 h = .ret (r, h1) ∧
        r.ne_nullptr = true ∧ r.ref = 0 ∧ r.alloc = h.brk + 1 ∧
        h1.objs r.alloc = some v ∧ Ref.to_T cfg r h1 = .ret v ∧
        h1.cnts = h.cnts ∧ h1.freed = h.freed) ∧
    (¬ h.first_ok →
      Ref.make_instance_ref v 0 h = .panic .ERROR_MEMORY_ALLOCATION_FAILED) ∧
    (∀ (u : Ref) (h2 : Heap T), u.ref = 0 →
      ∃ b, Ref.copy u h2 = .ret (b, h2) ∧ b.ref = 0 ∧ b.alloc = u.alloc) ∧
    (∀ (u : Ref) (h2 : Heap T), u.ref = 0 →
      Ref.drop u h2 = .ret ({ alloc := 0, ref := 0 }, h2)) ∧
    (cfg.disable_reference_counting = true →
      Ref.make cfg v h = Ref.make_instance_ref v 0 h ∧
      new_ref cfg v h = Ref.make_instance_ref v 0 h) := by
  refine ⟨?_, ?_, ?_, ?_, ?_⟩
  · intro hp
    obtain ⟨objs, cnts, brk, plan, freed⟩ := h
    rcases plan with _ | ⟨b1, rest⟩
    · simp [Heap.first_ok] at hp
    · simp [Heap.first_ok] at hp
      subst hp
      refine ⟨{ alloc := brk + 1, ref := 0 },
        { objs := Function.update objs (brk + 1) (some v), cnts := cnts,
          brk := brk + 1, plan := rest, freed := freed },
        ?_, ?_, rfl, rfl, ?_, ?_, rfl, rfl⟩
      · simp [Ref.make_instance_ref, new_nothrow_T, store_T]
      · simp [Ref.ne_nullptr, Ref.eq_nullptr]
      · simp
      · exact to_T_live cfg _ _ v (by simp) (by simp)
  · intro hp
    obtain ⟨objs, cnts, brk, plan, freed⟩ := h
    rcases plan with _ | ⟨b1, rest⟩
    · simp [Ref.make_instance_ref, new_nothrow_T]
    · cases b1
      · simp [Ref.make_instance_ref, new_nothrow_T]
      · simp [Heap.first_ok] at hp
  · intro u h2 hu
    exact ⟨_, get_copy_uncounted _ u h2 hu, hu, rfl⟩
  · intro u h2 hu
    exact drop_uncounted u h2 hu
  · intro hrc
    simp [Ref.make, new_ref, hrc]

/-- C10 at a concrete input: `make(10, nullptr)` on the blank heap, its copy
and its drop. -/
theorem unmanaged_spec_witness :
    (∃ r h1, Ref.make_instance_ref 10 0 (Heap.blank [true]) = .ret (r, h1) ∧
      r.ref = 0 ∧ r.alloc = 1 ∧ Ref.to_T Config.default_build r h1 = .ret 10) ∧
    (∃ b, Ref.copy { alloc := 1, ref := 0 } (Heap.blank []) = .ret (b, Heap.blank []) ∧
      b.ref = 0 ∧ b.alloc = 1) ∧
    Ref.drop { alloc := 1, ref := 0 } (Heap.blank []) = .ret ({ alloc := 0, ref := 0 }, Heap.blank []) := by
  have hw := unmanaged_spec Config.default_build (10 : Nat) (Heap.blank [true])
  obtain ⟨r, h1, e1, -, e2, e3, -, e4, -⟩ := hw.1 (by decide)
  exact ⟨⟨r, h1, e1, e2, e3, e4⟩, hw.2.2.1 { alloc := 1, ref := 0 } (Heap.blank []) rfl,
    hw.2.2.2.1 { alloc := 1, ref := 0 } (Heap.blank []) rfl⟩

/-! ### Objects of a program after an update in place -/

theorem getD_set_self (vars : List Ref) (i : Nat) (x : Ref) (hi : i < vars.length) :
    (vars.set i x).getD i {} = x := by
  simp [List.getD_eq_getElem?_getD, List.getElem?_set_self hi]

theorem set_getD_self (vars : List Ref) (i : Nat) :
    vars.set i (vars.getD i {}) = vars := by
  by_cases hi : i < vars.length
  · apply List.ext_getElem (by simp)
    intro k h1 h2
    by_cases hk : i = k
    · subst hk
      simp [List.getD_eq_getElem?_getD, List.getElem?_eq_getElem hi]
    · simp [List.getElem_set_ne hk]
  · exact List.set_eq_of_length_le (Nat.le_of_not_lt hi)

/-- The assignment `vars[i] = vars[j]` when the self-assignment test fails:
the drop of `vars[i]` followed by the copy from `vars[j]`. -/
theorem operator_assign_unguarded {T : Type} (s : State T) (i j : Nat) (a x : Ref)
    (h1 h2 : Heap T)
    (hg : ¬ ((s.var i).alloc ≠ 0 ∧ (s.var i).alloc = (s.var j).alloc))
    (hd : Ref.drop (s.var i) s.heap = .ret (a, h1))
    (hc : Ref.__get_copy ((s.vars.set i a).getD i {}) ((s.vars.set i a).getD j {}) h1
      = .ret (x, h2)) :
    operator_assign s i j = .ret { vars := (s.vars.set i a).set i x, heap := h2 } := by
  unfold operator_assign
  rw [if_neg hg]
  simp only [State.var] at hd hc ⊢
  simp only [drop_var, State.var, hd, hc]

/-! ### C7: self-assignment -/

/-- C7, as the code has it: for every reference object `a = vars[i]` that is
non-empty, or that has no count cell, the assignment `a = a` returns the
program state as it was: the two fields of `a` and of every other object,
every count cell, every payload and the log of deletions are unchanged. -/
theorem self_assign_noop {T : Type} (s : State T) (i : Nat)
    (ha : (s.var i).alloc ≠ 0 ∨ (s.var i).ref = 0) :
    operator_assign s i i = .ret s := by
  by_cases h0 : (s.var i).alloc = 0
  · have hr : (s.var i).ref = 0 := ha.resolve_left (fun h => h h0)
    have he : ({ alloc := 0, ref := 0 } : Ref) = s.var i := by
      cases hv : s.var i with
      | mk al rf => rw [hv] at h0 hr; simp_all
    have hd : Ref.drop (s.var i) s.heap = .ret (s.var i, s.heap) := by
      rw [drop_uncounted _ _ hr, he]
    have hs : s.vars.set i (s.var i) = s.vars := set_getD_self s.vars i
    have hc : Ref.__get_copy ((s.vars.set i (s.var i)).getD i {})
        ((s.vars.set i (s.var i)).getD i {}) s.heap = .ret (s.var i, s.heap) := by
      rw [hs]
      exact get_copy_uncounted _ _ _ hr
    rw [operator_assign_unguarded s i i (s.var i) (s.var i) s.heap s.heap
      (by simp [h0]) hd hc, hs, hs]
  · simp [operator_assign, h0]

/-- C7 at a concrete input: the sole owner of payload 2 assigned to itself. -/
theorem self_assign_noop_witness :
    ((State.var { vars := [{ alloc := 2, ref := 1 }], heap := Heap.owned 1 } 0).alloc ≠ 0 ∨
      (State.var { vars := [{ alloc := 2, ref := 1 }], heap := Heap.owned 1 } 0).ref = 0) ∧
    operator_assign { vars := [{ alloc := 2, ref := 1 }], heap := Heap.owned 1 } 0 0
      = .ret { vars := [{ alloc := 2, ref := 1 }], heap := Heap.owned 1 } :=
  ⟨Or.inl (by decide), self_assign_noop _ 0 (Or.inl (by decide))⟩

/-- C7 fails as stated: `a = Ref::make(p)` for a null `T *p` has a count
cell (address 1, holding 1) and a null payload pointer. The assignment
`a = a` is not caught by the self-assignment test; it drops `a`, which
deletes the count cell, and leaves `a` without count cell. -/
theorem self_assign_counterexample :
    ∃ a h1 s1,
      Ref.make_ptr Config.default_build 0 (Heap.blank [true]) = .ret (a, h1) ∧
      a = { alloc := 0, ref := 1 } ∧ h1.cnts 1 = some 1 ∧ h1.freed = [] ∧
      operator_assign { vars := [a], heap := h1 } 0 0 = .ret s1 ∧
      s1.var 0 = { alloc := 0, ref := 0 } ∧ (s1.var 0).ref ≠ a.ref ∧
      s1.heap.cnts 1 = none ∧ s1.heap.freed = [1] := by
  have hM : (1 : Nat) % UINT_MODULUS = 1 := Nat.mod_eq_of_lt UINT_MODULUS_pos
  let a : Ref := { alloc := 0, ref := 1 }
  let h1 : Heap Nat :=
    { objs := fun _ => none, cnts := Function.update (fun _ => none) 1 (some 1),
      brk := 1, plan := [], freed := [] }
  let h2 : Heap Nat := released_T a.alloc (released_Uint a.ref (h1.put_cnt a.ref (some 0)))
  have hm : Ref.make_ptr Config.default_build 0 (Heap.blank [true]) = .ret (a, h1) := by
    simp [Ref.make_ptr, Config.default_build, Heap.blank, new_nothrow_Uint, store_Uint,
      REFERENCE_DELTA, hM, a, h1]
  have hd : Ref.drop (State.var { vars := [a], heap := h1 } 0) h1
      = .ret ({ alloc := 0, ref := 0 }, h2) :=
    drop_last a h1 (by simp [a]) (by simp [a, h1]) (Or.inl (by simp [a]))
  have ha : operator_assign { vars := [a], heap := h1 } 0 0
      = .ret { vars := [{ alloc := 0, ref := 0 }], heap := h2 } :=
    operator_assign_unguarded { vars := [a], heap := h1 } 0 0 { alloc := 0, ref := 0 }
      { alloc := 0, ref := 0 } h2 h2 (by simp [State.var, a]) hd
      (get_copy_uncounted _ _ _ (by simp))
  refine ⟨a, h1, _, hm, rfl, by simp [h1], rfl, ha, ?_, ?_, ?_, ?_⟩
  · simp [State.var]
  · simp [State.var, a]
  · simp [h2, a, released_T, released_Uint, Heap.put_cnt]
  · simp [h2, h1, a, released_T, released_Uint, Heap.put_cnt]

/-! ### Effect of drop and of copy on the heap -/

theorem countP_set (q : Ref → Bool) (l : List Ref) (i : Nat) (x : Ref)
    (hi : i < l.length) :
    (l.set i x).countP q + (if q (l.getD i {}) then 1 else 0)
      = l.countP q + (if q x then 1 else 0) := by
  induction l generalizing i with
  | nil => simp at hi
  | cons y ys ih =>
    cases i with
    | zero =>
      simp only [List.set_cons_zero, List.countP_cons, List.getD_cons_zero]
      omega
    | succ k =>
      have hk : k < ys.length := by simpa using hi
      have := ih k hk
      simp only [List.set_cons_succ, List.countP_cons, List.getD_cons_succ]
      omega

theorem holders_append (c : Nat) (vars : List Ref) (x : Ref) :
    holders c (vars ++ [x])
      = holders c vars + (if x.alloc ≠ 0 ∧ x.ref = c then 1 else 0) := by
  unfold holders
  rw [List.countP_append, List.countP_singleton]
  by_cases hx : x.alloc ≠ 0 ∧ x.ref = c <;> simp [hx]

theorem holders_set (c : Nat) (vars : List Ref) (i : Nat) (x : Ref)
    (hi : i < vars.length) :
    holders c (vars.set i x)
        + (if (vars.getD i {}).alloc ≠ 0 ∧ (vars.getD i {}).ref = c then 1 else 0)
      = holders c vars + (if x.alloc ≠ 0 ∧ x.ref = c then 1 else 0) := by
  have h := countP_set (fun r => decide (r.alloc ≠ 0 ∧ r.ref = c)) vars i x hi
  unfold holders
  by_cases h1 : (vars.getD i {}).alloc ≠ 0 ∧ (vars.getD i {}).ref = c <;>
    by_cases h2 : x.alloc ≠ 0 ∧ x.ref = c <;>
    simp only [h1, h2, decide_True, decide_False, if_true, if_false] at h ⊢ <;>
    first
      | exact h
      | simpa using h

theorem holders_le_length (c : Nat) (vars : List Ref) :
    holders c vars ≤ vars.length := List.countP_le_length _

theorem holders_pos_of_mem (c : Nat) (vars : List Ref) (r : Ref) (hr : r ∈ vars)
    (ha : r.alloc ≠ 0) (hc : r.ref = c) : 0 < holders c vars := by
  unfold holders
  rw [List.countP_pos_iff]
  exact ⟨r, hr, by simp [ha, hc]⟩

theorem getD_mem (vars : List Ref) (i : Nat) (hi : i < vars.length) :
    vars.getD i {} ∈ vars := by
  rw [List.getD_eq_getElem?_getD, List.getElem?_eq_getElem hi]
  exact List.getElem_mem hi

/-! ### The family invariant is kept by every operation -/

theorem family_copy {T : Type} (p c : Nat) (log : List Nat) (s : State T) (j : Nat)
    (hp : p ≠ 0) (hc : c ≠ 0) (hinv : family_inv p c log s) (hj : j < s.vars.length)
    (hb : s.vars.length + 1 < UINT_MODULUS) :
    ∃ s1, copy_construct s j = .ret s1 ∧ family_inv p c log s1 ∧
      s1.vars.length = s.vars.length + 1 ∧
      (holders c s.vars = 0 → holders c s1.vars = 0) ∧
      holders c s.vars ≤ holders c s1.vars := by
  obtain ⟨hmem, hst⟩ := hinv
  have hsrc := hmem _ (getD_mem s.vars j hj)
  rcases hsrc with hsrc | hsrc
  · -- the source holds the cell
    have hpos : 0 < holders c s.vars :=
      holders_pos_of_mem c s.vars _ (getD_mem s.vars j hj) (by rw [hsrc]; exact hp)
        (by rw [hsrc])
    rcases hst with ⟨-, hcnt, hobj, hfr⟩ | ⟨h0, -⟩
    · have hle := holders_le_length c s.vars
      have hcopy : Ref.copy (s.var j) s.heap = .ret ({ alloc := p, ref := c },
          s.heap.put_cnt c (some ((holders c s.vars + 1) % UINT_MODULUS))) := by
        have := get_copy_counted {} (s.var j) s.heap (holders c s.vars)
          (by show (s.vars.getD j {}).ref ≠ 0; rw [hsrc]; exact hc)
          (by show s.heap.cnts (s.vars.getD j {}).ref = _; rw [hsrc]; exact hcnt)
        have e : s.var j = { alloc := p, ref := c } := hsrc
        rw [e] at this
        rw [e]
        exact this
      refine ⟨State.mk (s.vars ++ [{ alloc := p, ref := c }])
          (s.heap.put_cnt c (some ((holders c s.vars + 1) % UINT_MODULUS))),
        by simp only [copy_construct, hcopy], ⟨?_, Or.inl ⟨?_, ?_, ?_, ?_⟩⟩, by simp,
        fun h0 => by omega, by show _ ≤ holders c (s.vars ++ _); rw [holders_append]; omega⟩
      · intro r hr
        rcases List.mem_append.1 hr with h1 | h1
        · exact hmem r h1
        · left; simpa using h1
      · rw [holders_append]; omega
      · rw [holders_append]
        simp [Heap.put_cnt, hp, wrap_succ (holders c s.vars) (by omega)]
      · simpa [Heap.put_cnt] using hobj
      · simpa [Heap.put_cnt] using hfr
    · omega
  · -- the source is empty
    have hcopy : Ref.copy (s.var j) s.heap = .ret ({ alloc := 0, ref := 0 }, s.heap) := by
      have e : s.var j = { alloc := 0, ref := 0 } := hsrc
      rw [e]
      exact get_copy_uncounted _ _ _ rfl
    refine ⟨State.mk (s.vars ++ [{ alloc := 0, ref := 0 }]) s.heap,
      by simp only [copy_construct, hcopy], ⟨?_, ?_⟩, by simp, ?_, ?_⟩
    · intro r hr
      rcases List.mem_append.1 hr with h1 | h1
      · exact hmem r h1
      · right; simpa using h1
    · have hh : holders c (s.vars ++ [{ alloc := 0, ref := 0 }]) = holders c s.vars := by
        rw [holders_append]; simp
      simpa [hh] using hst
    · intro h0
      show holders c (s.vars ++ _) = 0
      rw [holders_append]; simpa using h0
    · show _ ≤ holders c (s.vars ++ _)
      rw [holders_append]; omega

theorem family_drop {T : Type} (p c : Nat) (log : List Nat) (s : State T) (i : Nat)
    (hp : p ≠ 0) (hc : c ≠ 0) (hinv : family_inv p c log s) (hi : i < s.vars.length)
    (hb : s.vars.length < UINT_MODULUS) :
    ∃ s1, drop_var s i = .ret s1 ∧ family_inv p c log s1 ∧
      s1.vars.length = s.vars.length ∧ s1.var i = { alloc := 0, ref := 0 } ∧
      (holders c s.vars = 0 → holders c s1.vars = 0) ∧
      holders c s.vars ≤ holders c s1.vars + 1 := by
  obtain ⟨hmem, hst⟩ := hinv
  have hmem1 : ∀ r ∈ s.vars.set i { alloc := 0, ref := 0 },
      r = { alloc := p, ref := c } ∨ r = { alloc := 0, ref := 0 } := by
    intro r hr
    rcases List.mem_or_eq_of_mem_set hr with h1 | h1
    · exact hmem r h1
    · exact Or.inr h1
  have hset := holders_set c s.vars i { alloc := 0, ref := 0 } hi
  have hsrc := hmem _ (getD_mem s.vars i hi)
  rcases hsrc with hsrc | hsrc
  · have e : s.var i = { alloc := p, ref := c } := hsrc
    have hpos : 0 < holders c s.vars :=
      holders_pos_of_mem c s.vars _ (getD_mem s.vars i hi) (by rw [hsrc]; exact hp)
        (by rw [hsrc])
    rw [hsrc] at hset
    simp only [hp, ne_eq, not_false_eq_true, and_self, if_true, not_true_eq_false,
      false_and, if_false, add_zero] at hset
    rcases hst with ⟨-, hcnt, hobj, hfr⟩ | ⟨h0, -⟩
    · have hle := holders_le_length c s.vars
      by_cases h1 : holders c s.vars = 1
      · -- the last owner
        have hdrop : Ref.drop (s.var i) s.heap = .ret ({ alloc := 0, ref := 0 },
            released_T p (released_Uint c (s.heap.put_cnt c (some 0)))) := by
          have := drop_last (s.var i) s.heap (by rw [e]; exact hc)
            (by rw [e, hcnt, h1]) (Or.inr (by rw [e]; exact hobj))
          rw [e] at this
          rw [e]
          exact this
        refine ⟨State.mk (s.vars.set i { alloc := 0, ref := 0 })
            (released_T p (released_Uint c (s.heap.put_cnt c (some 0)))),
          by simp only [drop_var, hdrop], ⟨hmem1, Or.inr ⟨?_, ?_, ?_, ?_⟩⟩,
          by simp, getD_set_self _ _ _ hi, fun h0 => by omega,
          by show _ ≤ holders c (s.vars.set i _) + 1; omega⟩
        · show holders c (s.vars.set i _) = 0
          omega
        · simp [released_T, released_Uint, Heap.put_cnt, hp, hc]
        · simp [released_T, released_Uint, Heap.put_cnt, hp, hc]
        · simp [released_T, released_Uint, Heap.put_cnt, hp, hc, hfr]
      · -- another owner remains
        have hdrop : Ref.drop (s.var i) s.heap = .ret ({ alloc := 0, ref := 0 },
            s.heap.put_cnt c
              (some ((holders c s.vars + (UINT_MODULUS - 1)) % UINT_MODULUS))) := by
          have := drop_shared (s.var i) s.heap (holders c s.vars) (by rw [e]; exact hc)
            (by rw [e, hcnt]) (by omega) h1
          rw [e] at this
          rw [e]
          exact this
        refine ⟨State.mk (s.vars.set i { alloc := 0, ref := 0 })
            (s.heap.put_cnt c
              (some ((holders c s.vars + (UINT_MODULUS - 1)) % UINT_MODULUS))),
          by simp only [drop_var, hdrop], ⟨hmem1, Or.inl ⟨?_, ?_, ?_, ?_⟩⟩,
          by simp, getD_set_self _ _ _ hi, fun h0 => by omega,
          by show _ ≤ holders c (s.vars.set i _) + 1; omega⟩
        · show 0 < holders c (s.vars.set i _)
          omega
        · show (s.heap.put_cnt c _).cnts c = some (holders c (s.vars.set i _))
          rw [wrap_pred _ (by omega) hpos]
          simp only [Heap.put_cnt, Function.update_same]
          congr 1
          omega
        · simpa [Heap.put_cnt] using hobj
        · simpa [Heap.put_cnt] using hfr
    · omega
  · have e : s.var i = { alloc := 0, ref := 0 } := hsrc
    have hdrop : Ref.drop (s.var i) s.heap = .ret ({ alloc := 0, ref := 0 }, s.heap) :=
      drop_uncounted _ _ (by rw [e])
    have hsame : s.vars.set i { alloc := 0, ref := 0 } = s.vars := by
      have := set_getD_self s.vars i
      rw [hsrc] at this
      exact this
    refine ⟨State.mk (s.vars.set i { alloc := 0, ref := 0 }) s.heap,
      by simp only [drop_var, hdrop], ?_, by simp, getD_set_self _ _ _ hi, ?_, ?_⟩
    · show family_inv p c log { vars := s.vars.set i _, heap := s.heap }
      rw [hsame]
      exact ⟨hmem, hst⟩
    · intro h0
      show holders c (s.vars.set i _) = 0
      rw [hsame]; exact h0
    · show _ ≤ holders c (s.vars.set i _) + 1
      rw [hsame]; omega

theorem family_get_copy {T : Type} (p c : Nat) (log : List Nat) (s : State T)
    (i j : Nat) (hp : p ≠ 0) (hc : c ≠ 0) (hinv : family_inv p c log s)
    (hi : i < s.vars.length) (hj : j < s.vars.length)
    (he : s.var i = { alloc := 0, ref := 0 })
    (hb : s.vars.length + 1 < UINT_MODULUS) :
    ∃ x h2, Ref.__get_copy (s.var i) (s.var j) s.heap = .ret (x, h2) ∧
      family_inv p c log { vars := s.vars.set i x, heap := h2 } ∧
      (holders c s.vars = 0 → holders c (s.vars.set i x) = 0) ∧
      holders c s.vars ≤ holders c (s.vars.set i x) := by
  obtain ⟨hmem, hst⟩ := hinv
  have hsrc := hmem _ (getD_mem s.vars j hj)
  have hei : s.vars.getD i {} = { alloc := 0, ref := 0 } := he
  rcases hsrc with hsrc | hsrc
  · have e : s.var j = { alloc := p, ref := c } := hsrc
    have hpos : 0 < holders c s.vars :=
      holders_pos_of_mem c s.vars _ (getD_mem s.vars j hj) (by rw [hsrc]; exact hp)
        (by rw [hsrc])
    have hset := holders_set c s.vars i { alloc := p, ref := c } hi
    rw [hei] at hset
    simp only [hp, ne_eq, not_false_eq_true, and_self, if_true, not_true_eq_false,
      false_and, if_false, add_zero] at hset
    rcases hst with ⟨-, hcnt, hobj, hfr⟩ | ⟨h0, -⟩
    · have hle := holders_le_length c s.vars
      have hcopy : Ref.__get_copy (s.var i) (s.var j) s.heap
          = .ret ({ alloc := p, ref := c },
              s.heap.put_cnt c (some ((holders c s.vars + 1) % UINT_MODULUS))) := by
        have := get_copy_counted (s.var i) (s.var j) s.heap (holders c s.vars)
          (by rw [e]; exact hc) (by rw [e]; exact hcnt)
        rw [e] at this
        rw [e]
        exact this
      refine ⟨_, _, hcopy, ⟨?_, Or.inl ⟨?_, ?_, ?_, ?_⟩⟩, fun h0 => by omega, by omega⟩
      · intro r hr
        rcases List.mem_or_eq_of_mem_set hr with h1 | h1
        · exact hmem r h1
        · exact Or.inl h1
      · show 0 < holders c (s.vars.set i _)
        omega
      · show (s.heap.put_cnt c _).cnts c = some (holders c (s.vars.set i _))
        rw [wrap_succ _ (by omega), hset]
        simp [Heap.put_cnt]
      · simpa [Heap.put_cnt] using hobj
      · simpa [Heap.put_cnt] using hfr
    · omega
  · have e : s.var j = { alloc := 0, ref := 0 } := hsrc
    have hcopy : Ref.__get_copy (s.var i) (s.var j) s.heap
        = .ret ({ alloc := 0, ref := 0 }, s.heap) := by
      rw [e]
      exact get_copy_uncounted _ _ _ rfl
    have hsame : s.vars.set i { alloc := 0, ref := 0 } = s.vars := by
      have := set_getD_self s.vars i
      rw [hei] at this
      exact this
    refine ⟨_, _, hcopy, ?_, ?_, ?_⟩
    · rw [hsame]
      exact ⟨hmem, hst⟩
    · intro h0
      rw [hsame]; exact h0
    · rw [hsame]

theorem family_assign {T : Type} (p c : Nat) (log : List Nat) (s : State T)
    (i j : Nat) (hp : p ≠ 0) (hc : c ≠ 0) (hinv : family_inv p c log s)
    (hi : i < s.vars.length) (hj : j < s.vars.length)
    (hb : s.vars.length + 1 < UINT_MODULUS) :
    ∃ s1, operator_assign s i j = .ret s1 ∧ family_inv p c log s1 ∧
      s1.vars.length = s.vars.length ∧
      (holders c s.vars = 0 → holders c s1.vars = 0) ∧
      holders c s.vars ≤ holders c s1.vars + 1 := by
  by_cases hg : (s.var i).alloc ≠ 0 ∧ (s.var i).alloc = (s.var j).alloc
  · exact ⟨s, by simp only [operator_assign, if_pos hg], hinv, rfl, fun h0 => h0, by omega⟩
  · obtain ⟨s1, hd, hinv1, hlen1, hv1, hz1, hd1⟩ :=
      family_drop p c log s i hp hc hinv hi (by omega)
    obtain ⟨x, h2, hcp, hinv2, hz2, hd2⟩ :=
      family_get_copy p c log s1 i j hp hc hinv1 (by omega) (by omega) hv1 (by omega)
    refine ⟨State.mk (s1.vars.set i x) h2, ?_, hinv2, by simp [hlen1],
      fun h0 => hz2 (hz1 h0), by show _ ≤ holders c (s1.vars.set i x) + 1; omega⟩
    unfold operator_assign
    rw [if_neg hg]
    simp only [hd, hcp]

theorem family_step {T : Type} (p c : Nat) (log : List Nat) (s : State T)
    (op : RefOp) (hp : p ≠ 0) (hc : c ≠ 0) (hinv : family_inv p c log s)
    (hb : s.vars.length + 1 < UINT_MODULUS) :
    ∃ s1, step s op = .ret s1 ∧ family_inv p c log s1 ∧
      s1.vars.length ≤ s.vars.length + 1 ∧
      (holders c s.vars = 0 → holders c s1.vars = 0) ∧
      holders c s.vars ≤ holders c s1.vars + 1 ∧
      (∀ j, op = .copy j → holders c s.vars ≤ holders c s1.vars) := by
  cases op with
  | copy j =>
    by_cases hj : j < s.vars.length
    · obtain ⟨s1, h1, h2, h3, h4, h5⟩ := family_copy p c log s j hp hc hinv hj hb
      exact ⟨s1, by simp only [step, if_pos hj, h1], h2, by omega, h4, by omega,
        fun _ _ => h5⟩
    · exact ⟨s, by simp only [step, if_neg hj], hinv, by omega, fun h0 => h0, by omega,
        fun _ _ => le_refl _⟩
  | assign i j =>
    by_cases hij : i < s.vars.length ∧ j < s.vars.length
    · obtain ⟨s1, h1, h2, h3, h4, h5⟩ :=
        family_assign p c log s i j hp hc hinv hij.1 hij.2 hb
      exact ⟨s1, by simp only [step, if_pos hij, h1], h2, by omega, h4, h5,
        fun _ hop => by cases hop⟩
    · exact ⟨s, by simp only [step, if_neg hij], hinv, by omega, fun h0 => h0, by omega,
        fun _ hop => by cases hop⟩
  | drop i =>
    by_cases hi : i < s.vars.length
    · obtain ⟨s1, h1, h2, h3, -, h4, h5⟩ :=
        family_drop p c log s i hp hc hinv hi (by omega)
      exact ⟨s1, by simp only [step, if_pos hi, h1], h2, by omega, h4, h5,
        fun _ hop => by cases hop⟩
    · exact ⟨s, by simp only [step, if_neg hi], hinv, by omega, fun h0 => h0, by omega,
        fun _ hop => by cases hop⟩

theorem family_run {T : Type} (p c : Nat) (log : List Nat) (ops : List RefOp)
    (s : State T) (hp : p ≠ 0) (hc : c ≠ 0) (hinv : family_inv p c log s)
    (hb : s.vars.length + ops.length + 1 < UINT_MODULUS) :
    ∃ s1, run s ops = .ret s1 ∧ family_inv p c log s1 ∧
      s1.vars.length ≤ s.vars.length + ops.length := by
  induction ops generalizing s with
  | nil => exact ⟨s, rfl, hinv, by simp⟩
  | cons op ops ih =>
    simp only [List.length_cons] at hb
    obtain ⟨s1, h1, h2, h3, -⟩ := family_step p c log s op hp hc hinv (by omega)
    obtain ⟨s2, h4, h5, h6⟩ := ih s1 h2 (by omega)
    exact ⟨s2, by simp only [run, h1, h4], h5, by simp only [List.length_cons]; omega⟩

/-- When `Ref::make(v)` returns with counting enabled, both allocations
succeeded. -/
theorem make_counted_ret {T : Type} [Inhabited T] (cfg : Config) (v : T) (h0 h1 : Heap T)
    (a : Ref) (hrc : cfg.disable_reference_counting = false)
    (hm : Ref.make cfg v h0 = .ret (a, h1)) :
    ∃ rest, h0.plan = true :: true :: rest := by
  rcases hp : h0.plan with _ | ⟨b1, _ | ⟨b2, rest⟩⟩
  · simp [Ref.make, hrc, new_nothrow_Uint, hp] at hm
  · cases b1 <;>
      simp [Ref.make, hrc, new_nothrow_Uint, hp, Ref.make_instance_ref, new_nothrow_T,
        store_Uint] at hm
  · cases b1 <;> cases b2 <;>
      simp [Ref.make, hrc, new_nothrow_Uint, hp, Ref.make_instance_ref, new_nothrow_T,
        store_Uint] at hm
    exact ⟨rest, rfl⟩

/-- The family invariant holds right after `Ref::make(v)`. -/
theorem family_init {T : Type} [Inhabited T] (cfg : Config) (v : T) (h0 h1 : Heap T)
    (a : Ref) (hrc : cfg.disable_reference_counting = false)
    (hm : Ref.make cfg v h0 = .ret (a, h1)) :
    a.alloc ≠ 0 ∧ a.ref ≠ 0 ∧ a.ref ≠ a.alloc ∧
      family_inv a.alloc a.ref h0.freed { vars := [a], heap := h1 } := by
  obtain ⟨rest, hp⟩ := make_counted_ret cfg v h0 h1 a hrc hm
  rw [make_counted_ok cfg v h0 rest hrc hp] at hm
  simp only [Exec.ret.injEq, Prod.mk.injEq] at hm
  obtain ⟨ha, hh⟩ := hm
  subst ha
  subst hh
  refine ⟨by simp, by simp, by simp, ?_, Or.inl ?_⟩
  · intro r hr
    left
    simpa using hr
  · simp [holders]

/-! ### C1: the reference-count invariant -/

/-- C1: let `a = Ref::make(instance)` (counting enabled), with count cell `c`
and payload `p`, and apply any finite sequence of copy constructions,
assignments and drops to `a` and the objects derived from it (the sequence
short enough for the number of objects to stay below `2^64`, the range of
`jule::Uint`). Then the sequence runs to completion without panic or
undefined behaviour, every object is empty or holds (`p`, `c`), and in the
state reached either

* some object holds `c`, the cell is allocated and its value is the number of
  non-empty objects holding it (so it is not 0), the payload is allocated and
  nothing has been deleted since the call of `make`; or
* no object holds `c`, the cell and the payload are no longer allocated, and
  the deletions since the call of `make` are exactly the cell and then the
  payload, once each.

Moreover any further operation changes the log of deletions if and only if it
takes the number of holders from 1 to 0, and such an operation is a drop or
an assignment (which drops), never a copy construction. -/
theorem refcount_invariant {T : Type} [Inhabited T] (cfg : Config) (v : T)
    (h0 h1 : Heap T) (a : Ref) (ops : List RefOp)
    (hrc : cfg.disable_reference_counting = false)
    (hm : Ref.make cfg v h0 = .ret (a, h1))
    (hlen : ops.length + 3 < UINT_MODULUS) :
    ∃ s, run { vars := [a], heap := h1 } ops = .ret s ∧
      (∀ r ∈ s.vars, r = a ∨ r = { alloc := 0, ref := 0 }) ∧
      ((0 < holders a.ref s.vars ∧ s.heap.cnts a.ref = some (holders a.ref s.vars) ∧
          s.heap.cnts a.ref ≠ some 0 ∧
          (s.heap.objs a.alloc).isSome = true ∧ s.heap.freed = h0.freed) ∨
        (holders a.ref s.vars = 0 ∧ s.heap.cnts a.ref = none ∧
          s.heap.objs a.alloc = none ∧
          s.heap.freed = h0.freed ++ [a.ref, a.alloc])) ∧
      a.ref ≠ a.alloc ∧
      (∀ op, ∃ s2, step s op = .ret s2 ∧
        (s2.heap.freed ≠ s.heap.freed ↔
          holders a.ref s.vars = 1 ∧ holders a.ref s2.vars = 0) ∧
        (s2.heap.freed ≠ s.heap.freed → ∀ j, op ≠ .copy j)) := by
  obtain ⟨hp, hc, hcp, hinit⟩ := family_init cfg v h0 h1 a hrc hm
  obtain ⟨s, hrun, hinv, hlen1⟩ :=
    family_run a.alloc a.ref h0.freed ops { vars := [a], heap := h1 } hp hc hinit
      (by simp only [List.length_singleton]; omega)
  simp only [List.length_singleton] at hlen1
  have hne : ∀ l : List Nat, l ++ [a.ref, a.alloc] ≠ l := by
    intro l h
    have := congrArg List.length h
    simp at this
  refine ⟨s, hrun, hinv.1, ?_, hcp, ?_⟩
  · rcases hinv.2 with ⟨h1, h2, h3, h4⟩ | h
    · refine Or.inl ⟨h1, h2, ?_, h3, h4⟩
      rw [h2]
      intro e
      have := Option.some.inj e
      omega
    · exact Or.inr h
  · intro op
    obtain ⟨s2, hs, hinv2, -, hz, hd, hcopy⟩ :=
      family_step a.alloc a.ref h0.freed s op hp hc hinv (by omega)
    refine ⟨s2, hs, ⟨?_, ?_⟩, ?_⟩
    · intro hfr
      rcases hinv.2 with ⟨h1, -, -, h4⟩ | ⟨h1, -, -, h4⟩ <;>
        rcases hinv2.2 with ⟨g1, -, -, g4⟩ | ⟨g1, -, -, g4⟩
      · exact absurd (g4.trans h4.symm) hfr
      · exact ⟨by omega, g1⟩
      · have := hz h1
        omega
      · exact absurd (g4.trans h4.symm) hfr
    · rintro ⟨e1, e2⟩
      rcases hinv.2 with ⟨h1, -, -, h4⟩ | ⟨h1, -, -, h4⟩ <;>
        rcases hinv2.2 with ⟨g1, -, -, g4⟩ | ⟨g1, -, -, g4⟩
      · omega
      · rw [g4, h4]
        exact hne _
      · omega
      · omega
    · intro hfr j hop
      have hle := hcopy j hop
      rcases hinv.2 with ⟨h1, -, -, h4⟩ | ⟨h1, -, -, h4⟩ <;>
        rcases hinv2.2 with ⟨g1, -, -, g4⟩ | ⟨g1, -, -, g4⟩
      · exact absurd (g4.trans h4.symm) hfr
      · omega
      · omega
      · exact absurd (g4.trans h4.symm) hfr

/-- C1 at a concrete input: `make(10)` on the blank heap followed by a copy,
two drops, a copy of an emptied object and an assignment. -/
theorem refcount_invariant_witness :
    Config.default_build.disable_reference_counting = false ∧
    Ref.make Config.default_build 10 (Heap.blank [true, true])
      = .ret ({ alloc := 2, ref := 1 }, Heap.owned 1) ∧
    [RefOp.copy 0, RefOp.drop 0, RefOp.copy 0, RefOp.assign 2 1, RefOp.drop 1].length + 3
      < UINT_MODULUS ∧
    ∃ s, run { vars := [{ alloc := 2, ref := 1 }], heap := Heap.owned 1 }
        [RefOp.copy 0, RefOp.drop 0, RefOp.copy 0, RefOp.assign 2 1, RefOp.drop 1] = .ret s ∧
      ((0 < holders 1 s.vars ∧ s.heap.cnts 1 = some (holders 1 s.vars) ∧
          s.heap.cnts 1 ≠ some 0 ∧ (s.heap.objs 2).isSome = true ∧ s.heap.freed = []) ∨
        (holders 1 s.vars = 0 ∧ s.heap.cnts 1 = none ∧ s.heap.objs 2 = none ∧
          s.heap.freed = [] ++ [1, 2])) := by
  have hm : Ref.make Config.default_build 10 (Heap.blank [true, true])
      = .ret ({ alloc := 2, ref := 1 }, Heap.owned 1) :=
    make_counted_ok Config.default_build 10 (Heap.blank [true, true]) [] rfl rfl
  have hl : [RefOp.copy 0, RefOp.drop 0, RefOp.copy 0, RefOp.assign 2 1,
      RefOp.drop 1].length + 3 < UINT_MODULUS := by
    unfold UINT_MODULUS; norm_num
  obtain ⟨s, hrun, -, hst, -⟩ :=
    refcount_invariant Config.default_build 10 (Heap.blank [true, true]) (Heap.owned 1)
      { alloc := 2, ref := 1 } _ rfl hm hl
  exact ⟨rfl, hm, hl, s, hrun, hst⟩

/-! ### C6: one count cell per payload -/

/-- C6 fails as stated: `T *p = new T; r1 = Ref<T>::make(p); r2 =
Ref<T>::make(p);` gives two non-empty references with the same payload
address and two different count cells, each holding 1. -/
theorem two_cells_counterexample :
    ∃ p h1 r1 h2 r2 h3,
      new_nothrow_T (Heap.blank [true, true, true]) = (p, h1) ∧ p ≠ 0 ∧
      Ref.make_ptr Config.default_build p h1 = .ret (r1, h2) ∧
      Ref.make_ptr Config.default_build p h2 = .ret (r2, h3) ∧
      r1.ne_nullptr = true ∧ r2.ne_nullptr = true ∧
      r1.alloc = r2.alloc ∧ r1.ref ≠ r2.ref ∧
      h3.cnts r1.ref = some 1 ∧ h3.cnts r2.ref = some 1 := by
  have hM : (1 : Nat) % UINT_MODULUS = 1 := Nat.mod_eq_of_lt UINT_MODULUS_pos
  refine ⟨1, _, { alloc := 1, ref := 2 }, _, { alloc := 1, ref := 3 }, _, rfl, by decide,
    rfl, rfl, rfl, rfl, rfl, by decide, ?_, ?_⟩
  · simp [store_Uint, new_nothrow_Uint, new_nothrow_T, Heap.blank, REFERENCE_DELTA, hM]
  · simp [store_Uint, new_nothrow_Uint, new_nothrow_T, Heap.blank, REFERENCE_DELTA, hM]

theorem holders_eq_zero (c : Nat) (vars : List Ref) (h : ∀ r ∈ vars, r.ref ≠ c) :
    holders c vars = 0 := by
  unfold holders
  rw [List.countP_eq_zero]
  intro r hr
  simp [h r hr]

/-- A copy from an object of the program keeps the invariant, wherever the
copy is put. -/
theorem counted_get_copy {T : Type} (s : State T) (self b : Ref) (vars1 : List Ref)
    (hinv : counted_inv s) (hb : b ∈ s.vars)
    (hsub : ∀ r ∈ vars1, r ∈ s.vars)
    (hcount : ∀ c, holders c vars1
      = holders c s.vars + (if b.alloc ≠ 0 ∧ b.ref = c then 1 else 0))
    (hbound : s.vars.length + 1 < UINT_MODULUS) :
    ∃ h2, Ref.__get_copy self b s.heap = .ret (b, h2) ∧
      counted_inv { vars := vars1, heap := h2 } := by
  obtain ⟨i1, i2, i3, i4⟩ := hinv
  by_cases hr : b.ref = 0
  · refine ⟨s.heap, get_copy_uncounted self b s.heap hr, fun r h => i1 r (hsub r h), ?_,
      fun r1 h1 r2 h2 => i3 r1 (hsub r1 h1) r2 (hsub r2 h2), fun r h => i4 r (hsub r h)⟩
    intro r h hne
    obtain ⟨ha, hc⟩ := i2 r (hsub r h) hne
    refine ⟨ha, ?_⟩
    show s.heap.cnts r.ref = some (holders r.ref vars1)
    rw [hcount r.ref, hc]
    have : ¬ (b.alloc ≠ 0 ∧ b.ref = r.ref) := fun e => hne (e.2 ▸ hr)
    simp [this]
  · obtain ⟨hba, hbc⟩ := i2 b hb hr
    have hle := holders_le_length b.ref s.vars
    refine ⟨_, get_copy_counted self b s.heap _ hr hbc, fun r h => i1 r (hsub r h), ?_,
      fun r1 h1 r2 h2 => i3 r1 (hsub r1 h1) r2 (hsub r2 h2), fun r h => i4 r (hsub r h)⟩
    intro r h hne
    obtain ⟨ha, hc⟩ := i2 r (hsub r h) hne
    refine ⟨ha, ?_⟩
    show (s.heap.put_cnt b.ref _).cnts r.ref = some (holders r.ref vars1)
    rw [hcount r.ref, wrap_succ _ (by omega)]
    by_cases he : b.ref = r.ref
    · rw [← he]
      simp [Heap.put_cnt, hba]
    · have : ¬ (b.alloc ≠ 0 ∧ b.ref = r.ref) := fun e => he e.2
      simp [Heap.put_cnt, Function.update_noteq (Ne.symm he), this, hc]

theorem counted_copy {T : Type} (s : State T) (j : Nat) (hinv : counted_inv s)
    (hj : j < s.vars.length) (hbound : s.vars.length + 1 < UINT_MODULUS) :
    ∃ s1, copy_construct s j = .ret s1 ∧ counted_inv s1 ∧
      s1.vars.length = s.vars.length + 1 := by
  have hb : s.var j ∈ s.vars := getD_mem s.vars j hj
  obtain ⟨h2, hc, hinv2⟩ := counted_get_copy s {} (s.var j) (s.vars ++ [s.var j]) hinv hb
    (by
      intro r hr
      rcases List.mem_append.1 hr with h1 | h1
      · exact h1
      · rw [List.mem_singleton.1 h1]; exact hb)
    (fun c => holders_append c s.vars (s.var j)) hbound
  exact ⟨State.mk (s.vars ++ [s.var j]) h2, by simp only [copy_construct, Ref.copy, hc],
    hinv2, by simp⟩

theorem counted_drop {T : Type} (s : State T) (i : Nat) (hinv : counted_inv s)
    (hi : i < s.vars.length) (hbound : s.vars.length < UINT_MODULUS) :
    ∃ s1, drop_var s i = .ret s1 ∧ counted_inv s1 ∧
      s1.vars = s.vars.set i { alloc := 0, ref := 0 } := by
  obtain ⟨i1, i2, i3, i4⟩ := hinv
  have ha : s.var i ∈ s.vars := getD_mem s.vars i hi
  have hmem : ∀ r ∈ s.vars.set i { alloc := 0, ref := 0 },
      r ∈ s.vars ∨ r = { alloc := 0, ref := 0 } := fun r hr =>
    List.mem_or_eq_of_mem_set hr
  have hmemA : ∀ r ∈ s.vars.set i { alloc := 0, ref := 0 }, r.alloc ≠ 0 → r ∈ s.vars := by
    intro r hr hne
    rcases hmem r hr with h | h
    · exact h
    · rw [h] at hne; exact absurd rfl hne
  have hmemR : ∀ r ∈ s.vars.set i { alloc := 0, ref := 0 }, r.ref ≠ 0 → r ∈ s.vars := by
    intro r hr hne
    rcases hmem r hr with h | h
    · exact h
    · rw [h] at hne; exact absurd rfl hne
  have hset : ∀ c, holders c (s.vars.set i { alloc := 0, ref := 0 })
      + (if (s.var i).alloc ≠ 0 ∧ (s.var i).ref = c then 1 else 0) = holders c s.vars := by
    intro c
    have := holders_set c s.vars i { alloc := 0, ref := 0 } hi
    simpa [State.var] using this
  have h1' : ∀ r ∈ s.vars.set i { alloc := 0, ref := 0 },
      r.alloc ≤ s.heap.brk ∧ r.ref ≤ s.heap.brk := by
    intro r hr
    rcases hmem r hr with h | h
    · exact i1 r h
    · rw [h]; exact ⟨Nat.zero_le _, Nat.zero_le _⟩
  have h3' : ∀ r1 ∈ s.vars.set i { alloc := 0, ref := 0 },
      ∀ r2 ∈ s.vars.set i { alloc := 0, ref := 0 },
      r1.alloc ≠ 0 → r1.alloc = r2.alloc → r1.ref = r2.ref := by
    intro r1 hr1 r2 hr2 hne he
    exact i3 r1 (hmemA r1 hr1 hne) r2 (hmemA r2 hr2 (he ▸ hne)) hne he
  by_cases hr : (s.var i).ref = 0
  · -- no count cell
    refine ⟨State.mk (s.vars.set i { alloc := 0, ref := 0 }) s.heap,
      by simp only [drop_var, drop_uncounted _ _ hr], ⟨h1', ?_, h3', ?_⟩, rfl⟩
    · intro r hrm hne
      obtain ⟨ha1, hc1⟩ := i2 r (hmemR r hrm hne) hne
      refine ⟨ha1, ?_⟩
      have := hset r.ref
      have hn : ¬ ((s.var i).alloc ≠ 0 ∧ (s.var i).ref = r.ref) := fun e => hne (e.2 ▸ hr)
      simp only [hn, if_false, add_zero] at this
      show s.heap.cnts r.ref = some (holders r.ref (s.vars.set i _))
      rw [this, hc1]
    · intro r hrm hne
      exact i4 r (hmemA r hrm hne) hne
  · obtain ⟨hal, hcn⟩ := i2 _ ha hr
    have hle := holders_le_length (s.var i).ref s.vars
    have hk := hset (s.var i).ref
    simp only [hal, ne_eq, not_false_eq_true, and_self, if_true] at hk
    by_cases hone : holders (s.var i).ref s.vars = 1
    · -- the last owner
      have hz : holders (s.var i).ref (s.vars.set i { alloc := 0, ref := 0 }) = 0 := by omega
      have hnot : ∀ r ∈ s.vars.set i { alloc := 0, ref := 0 }, r.alloc ≠ 0 →
          r.ref ≠ (s.var i).ref := by
        intro r hrm hne he
        have := holders_pos_of_mem _ _ r hrm hne he
        omega
      refine ⟨State.mk (s.vars.set i { alloc := 0, ref := 0 })
          (released_T (s.var i).alloc (released_Uint (s.var i).ref
            (s.heap.put_cnt (s.var i).ref (some 0)))),
        by simp only [drop_var, drop_last _ _ hr (hone ▸ hcn) (Or.inr (i4 _ ha hal))],
        ⟨?_, ?_, h3', ?_⟩, rfl⟩
      · intro r hrm
        have := h1' r hrm
        simpa [released_T, released_Uint, Heap.put_cnt, hr, hal] using this
      · intro r hrm hne
        obtain ⟨ha1, hc1⟩ := i2 r (hmemR r hrm hne) hne
        refine ⟨ha1, ?_⟩
        have hd : r.ref ≠ (s.var i).ref := hnot r hrm ha1
        have := hset r.ref
        have hn : ¬ ((s.var i).alloc ≠ 0 ∧ (s.var i).ref = r.ref) := fun e => hd e.2.symm
        simp only [hn, if_false, add_zero] at this
        show (released_T _ (released_Uint _ _)).cnts r.ref = some (holders r.ref (s.vars.set i _))
        rw [this]
        simpa [released_T, released_Uint, Heap.put_cnt, hr, hal, Function.update_noteq hd]
          using hc1
      · intro r hrm hne
        have hin := hmemA r hrm hne
        have hd : r.alloc ≠ (s.var i).alloc := by
          intro he
          have := i3 r hin _ ha hne he
          exact hnot r hrm hne this
        show ((released_T _ (released_Uint _ _)).objs r.alloc).isSome = true
        simpa [released_T, released_Uint, Heap.put_cnt, hr, hal, Function.update_noteq hd]
          using i4 r hin hne
    · -- another owner remains
      have hpos : 0 < holders (s.var i).ref s.vars := holders_pos_of_mem _ _ _ ha hal rfl
      refine ⟨State.mk (s.vars.set i { alloc := 0, ref := 0 })
          (s.heap.put_cnt (s.var i).ref
            (some ((holders (s.var i).ref s.vars + (UINT_MODULUS - 1)) % UINT_MODULUS))),
        by simp only [drop_var, drop_shared _ _ _ hr hcn (by omega) hone],
        ⟨h1', ?_, h3', ?_⟩, rfl⟩
      · intro r hrm hne
        obtain ⟨ha1, hc1⟩ := i2 r (hmemR r hrm hne) hne
        refine ⟨ha1, ?_⟩
        show (s.heap.put_cnt _ _).cnts r.ref = some (holders r.ref (s.vars.set i _))
        rw [wrap_pred _ (by omega) hpos]
        by_cases hd : r.ref = (s.var i).ref
        · rw [hd]
          simp only [Heap.put_cnt, Function.update_same]
          congr 1
          omega
        · have := hset r.ref
          have hn : ¬ ((s.var i).alloc ≠ 0 ∧ (s.var i).ref = r.ref) := fun e => hd e.2.symm
          simp only [hn, if_false, add_zero] at this
          rw [this]
          simpa [Heap.put_cnt, Function.update_noteq hd] using hc1
      · intro r hrm hne
        exact i4 r (hmemA r hrm hne) hne

theorem counted_assign {T : Type} (s : State T) (i j : Nat) (hinv : counted_inv s)
    (hi : i < s.vars.length) (hj : j < s.vars.length)
    (hbound : s.vars.length + 1 < UINT_MODULUS) :
    ∃ s1, operator_assign s i j = .ret s1 ∧ counted_inv s1 ∧
      s1.vars.length = s.vars.length := by
  by_cases hg : (s.var i).alloc ≠ 0 ∧ (s.var i).alloc = (s.var j).alloc
  · exact ⟨s, by simp only [operator_assign, if_pos hg], hinv, rfl⟩
  · obtain ⟨s1, hd, hinv1, hv1⟩ := counted_drop s i hinv hi (by omega)
    have hlen1 : s1.vars.length = s.vars.length := by rw [hv1]; simp
    have hi1 : i < s1.vars.length := by omega
    have hj1 : j < s1.vars.length := by omega
    have hb : s1.var j ∈ s1.vars := getD_mem s1.vars j hj1
    have hempty : s1.vars.getD i {} = { alloc := 0, ref := 0 } := by
      rw [hv1]; exact getD_set_self _ _ _ hi
    obtain ⟨h2, hc, hinv2⟩ := counted_get_copy s1 (s1.var i) (s1.var j)
      (s1.vars.set i (s1.var j)) hinv1 hb
      (by
        intro r hr
        rcases List.mem_or_eq_of_mem_set hr with h1 | h1
        · exact h1
        · rw [h1]; exact hb)
      (by
        intro c
        have := holders_set c s1.vars i (s1.var j) hi1
        rw [hempty] at this
        simpa using this)
      (by omega)
    refine ⟨State.mk (s1.vars.set i (s1.var j)) h2, ?_, hinv2, by simp [hlen1]⟩
    unfold operator_assign
    rw [if_neg hg]
    simp only [hd, hc]

theorem counted_step {T : Type} (s : State T) (op : RefOp) (hinv : counted_inv s)
    (hbound : s.vars.length + 1 < UINT_MODULUS) :
    ∃ s1, step s op = .ret s1 ∧ counted_inv s1 ∧ s1.vars.length ≤ s.vars.length + 1 := by
  cases op with
  | copy j =>
    by_cases hj : j < s.vars.length
    · obtain ⟨s1, h1, h2, h3⟩ := counted_copy s j hinv hj hbound
      exact ⟨s1, by simp only [step, if_pos hj, h1], h2, by omega⟩
    · exact ⟨s, by simp only [step, if_neg hj], hinv, by omega⟩
  | assign i j =>
    by_cases hij : i < s.vars.length ∧ j < s.vars.length
    · obtain ⟨s1, h1, h2, h3⟩ := counted_assign s i j hinv hij.1 hij.2 hbound
      exact ⟨s1, by simp only [step, if_pos hij, h1], h2, by omega⟩
    · exact ⟨s, by simp only [step, if_neg hij], hinv, by omega⟩
  | drop i =>
    by_cases hi : i < s.vars.length
    · obtain ⟨s1, h1, h2, h3⟩ := counted_drop s i hinv hi (by omega)
      exact ⟨s1, by simp only [step, if_pos hi, h1], h2, by rw [h3]; simp⟩
    · exact ⟨s, by simp only [step, if_neg hi], hinv, by omega⟩

/-- A reference to a newly allocated payload, with a newly allocated count
cell holding 1 or with none, keeps the invariant. -/
theorem counted_declare {T : Type} (s : State T) (x : Ref) (h1 : Heap T)
    (hinv : counted_inv s)
    (hxa : s.heap.brk < x.alloc ∧ x.alloc ≤ h1.brk)
    (hxr : x.ref = 0 ∨ (s.heap.brk < x.ref ∧ x.ref ≤ h1.brk ∧ h1.cnts x.ref = some 1))
    (hcn : ∀ c, c ≤ s.heap.brk → h1.cnts c = s.heap.cnts c)
    (hob : ∀ p, p ≤ s.heap.brk → h1.objs p = s.heap.objs p)
    (hxo : (h1.objs x.alloc).isSome = true) :
    counted_inv { vars := s.vars ++ [x], heap := h1 } := by
  obtain ⟨i1, i2, i3, i4⟩ := hinv
  have hxne : x.alloc ≠ 0 := by omega
  refine ⟨?_, ?_, ?_, ?_⟩
  · intro r hr
    rcases List.mem_append.1 hr with h | h
    · have := i1 r h
      exact ⟨by show r.alloc ≤ h1.brk; omega, by show r.ref ≤ h1.brk; omega⟩
    · rw [List.mem_singleton.1 h]
      refine ⟨hxa.2, ?_⟩
      rcases hxr with h0 | h0
      · show x.ref ≤ h1.brk
        omega
      · exact h0.2.1
  · intro r hr hne
    show r.alloc ≠ 0 ∧ h1.cnts r.ref = some (holders r.ref (s.vars ++ [x]))
    rw [holders_append]
    rcases List.mem_append.1 hr with h | h
    · obtain ⟨ha, hc⟩ := i2 r h hne
      have hb := i1 r h
      have hn : ¬ (x.alloc ≠ 0 ∧ x.ref = r.ref) := by
        rintro ⟨-, e⟩
        rcases hxr with h0 | h0
        · exact hne (e ▸ h0)
        · omega
      rw [hcn _ hb.2, hc]
      simp [hn, ha]
    · rw [List.mem_singleton.1 h] at hne ⊢
      rcases hxr with h0 | h0
      · exact absurd h0 hne
      · have hz : holders x.ref s.vars = 0 := by
          apply holders_eq_zero
          intro r hr e
          have := (i1 r hr).2
          omega
        rw [hz, h0.2.2]
        simp [hxne]
  · intro r1 hr1 r2 hr2 hne he
    rcases List.mem_append.1 hr1 with h | h <;> rcases List.mem_append.1 hr2 with g | g
    · exact i3 r1 h r2 g hne he
    · rw [List.mem_singleton.1 g] at he
      have := (i1 r1 h).1
      omega
    · rw [List.mem_singleton.1 h] at he
      have := (i1 r2 g).1
      omega
    · rw [List.mem_singleton.1 h, List.mem_singleton.1 g]
  · intro r hr hne
    show (h1.objs r.alloc).isSome = true
    rcases List.mem_append.1 hr with h | h
    · rw [hob _ (i1 r h).1]
      exact i4 r h hne
    · rw [List.mem_singleton.1 h]
      exact hxo

/-- The result of `Ref::make(v, nullptr)`. -/
theorem make_unmanaged_cases {T : Type} [Inhabited T] (v : T) (h : Heap T) :
    Ref.make_instance_ref v 0 h = .panic .ERROR_MEMORY_ALLOCATION_FAILED ∨
    ∃ rest, h.plan = true :: rest ∧
      Ref.make_instance_ref v 0 h = .ret ({ alloc := h.brk + 1, ref := 0 },
        { objs := Function.update h.objs (h.brk + 1) (some v), cnts := h.cnts,
          brk := h.brk + 1, plan := rest, freed := h.freed }) := by
  rcases hp : h.plan with _ | ⟨b1, rest⟩
  · left; simp [Ref.make_instance_ref, new_nothrow_T, hp]
  · cases b1
    · left; simp [Ref.make_instance_ref, new_nothrow_T, hp]
    · right
      exact ⟨rest, rfl, by simp [Ref.make_instance_ref, new_nothrow_T, hp, store_T]⟩

/-- The result of `Ref::make(v)` with counting enabled. -/
theorem make_counted_cases {T : Type} [Inhabited T] (cfg : Config) (v : T) (h : Heap T)
    (hrc : cfg.disable_reference_counting = false) :
    Ref.make cfg v h = .panic .ERROR_MEMORY_ALLOCATION_FAILED ∨
    ∃ rest, h.plan = true :: true :: rest := by
  rcases hp : h.plan with _ | ⟨b1, _ | ⟨b2, rest⟩⟩
  · left; simp [Ref.make, hrc, new_nothrow_Uint, hp]
  · left
    cases b1 <;>
      simp [Ref.make, hrc, new_nothrow_Uint, hp, Ref.make_instance_ref, new_nothrow_T,
        store_Uint]
  · cases b1 <;> cases b2
    · left; simp [Ref.make, hrc, new_nothrow_Uint, hp]
    · left; simp [Ref.make, hrc, new_nothrow_Uint, hp]
    · left
      simp [Ref.make, hrc, new_nothrow_Uint, hp, Ref.make_instance_ref, new_nothrow_T,
        store_Uint]
    · right; exact ⟨rest, rfl⟩

theorem counted_make_unmanaged {T : Type} [Inhabited T] (v : T) (s : State T)
    (hinv : counted_inv s) :
    declare s (Ref.make_instance_ref v 0 s.heap) = .panic .ERROR_MEMORY_ALLOCATION_FAILED ∨
    ∃ s1, declare s (Ref.make_instance_ref v 0 s.heap) = .ret s1 ∧ counted_inv s1 ∧
      s1.vars.length = s.vars.length + 1 := by
  rcases make_unmanaged_cases v s.heap with h | ⟨rest, -, h⟩
  · left; rw [h]; rfl
  · right
    rw [h]
    refine ⟨_, rfl, counted_declare s _ _ hinv ?_ (Or.inl rfl) ?_ ?_ ?_, by simp⟩
    · exact ⟨Nat.lt_succ_self _, le_refl _⟩
    · intro c _; rfl
    · intro p hp
      have : p ≠ s.heap.brk + 1 := by omega
      simp [Function.update_noteq this]
    · simp

theorem counted_make {T : Type} [Inhabited T] (cfg : Config) (v : T) (s : State T)
    (hinv : counted_inv s) :
    declare s (Ref.make cfg v s.heap) = .panic .ERROR_MEMORY_ALLOCATION_FAILED ∨
    ∃ s1, declare s (Ref.make cfg v s.heap) = .ret s1 ∧ counted_inv s1 ∧
      s1.vars.length = s.vars.length + 1 := by
  cases hrc : cfg.disable_reference_counting
  · rcases make_counted_cases cfg v s.heap hrc with h | ⟨rest, hp⟩
    · left; rw [h]; rfl
    · right
      rw [make_counted_ok cfg v s.heap rest hrc hp]
      refine ⟨_, rfl, counted_declare s _ _ hinv ?_ (Or.inr ⟨?_, ?_, ?_⟩) ?_ ?_ ?_, by simp⟩
      · exact ⟨by show s.heap.brk < s.heap.brk + 2; omega, le_refl _⟩
      · show s.heap.brk < s.heap.brk + 1
        omega
      · show s.heap.brk + 1 ≤ s.heap.brk + 2
        omega
      · simp
      · intro c hc
        have : c ≠ s.heap.brk + 1 := by omega
        simp [Function.update_noteq this]
      · intro p hp
        have : p ≠ s.heap.brk + 2 := by omega
        simp [Function.update_noteq this]
      · simp
  · have e : Ref.make cfg v s.heap = Ref.make_instance_ref v 0 s.heap := by
      simp [Ref.make, hrc]
    rw [e]
    exact counted_make_unmanaged v s hinv

theorem counted_stmt {T : Type} [Inhabited T] (cfg : Config) (s : State T) (st : Stmt T)
    (hinv : counted_inv s) (hbound : s.vars.length + 1 < UINT_MODULUS) :
    exec_stmt cfg s st = .panic .ERROR_MEMORY_ALLOCATION_FAILED ∨
    ∃ s1, exec_stmt cfg s st = .ret s1 ∧ counted_inv s1 ∧
      s1.vars.length ≤ s.vars.length + 1 := by
  cases st with
  | make v =>
    rcases counted_make cfg v s hinv with h | ⟨s1, h1, h2, h3⟩
    · exact Or.inl h
    · exact Or.inr ⟨s1, h1, h2, by omega⟩
  | make_unmanaged v =>
    rcases counted_make_unmanaged v s hinv with h | ⟨s1, h1, h2, h3⟩
    · exact Or.inl h
    · exact Or.inr ⟨s1, h1, h2, by omega⟩
  | new_ref v =>
    have e : new_ref cfg v s.heap = Ref.make cfg v s.heap := by
      cases hrc : cfg.disable_reference_counting <;> simp [new_ref, Ref.make, hrc]
    rcases counted_make cfg v s hinv with h | ⟨s1, h1, h2, h3⟩
    · exact Or.inl (by simp only [exec_stmt, e, h])
    · exact Or.inr ⟨s1, by simp only [exec_stmt, e, h1], h2, by omega⟩
  | new_ref_default =>
    rcases counted_make cfg (default : T) s hinv with h | ⟨s1, h1, h2, h3⟩
    · exact Or.inl h
    · exact Or.inr ⟨s1, h1, h2, by omega⟩
  | op o =>
    obtain ⟨s1, h1, h2, h3⟩ := counted_step s o hinv hbound
    exact Or.inr ⟨s1, h1, h2, h3⟩

theorem counted_exec {T : Type} [Inhabited T] (cfg : Config) (prog : List (Stmt T))
    (s : State T) (hinv : counted_inv s)
    (hbound : s.vars.length + prog.length + 1 < UINT_MODULUS) :
    exec cfg s prog = .panic .ERROR_MEMORY_ALLOCATION_FAILED ∨
    ∃ s1, exec cfg s prog = .ret s1 ∧ counted_inv s1 := by
  induction prog generalizing s with
  | nil => exact Or.inr ⟨s, rfl, hinv⟩
  | cons st rest ih =>
    simp only [List.length_cons] at hbound
    rcases counted_stmt cfg s st hinv (by omega) with h | ⟨s1, h1, h2, h3⟩
    · left
      simp only [exec, h]
    · rcases ih s1 h2 (by omega) with g | ⟨s2, g1, g2⟩
      · left
        simp only [exec, h1, g]
      · right
        exact ⟨s2, by simp only [exec, h1, g1], g2⟩

/-- C6, as the code has it: in every program built from the value-taking
creations `Ref::make(v)`, `Ref::make(v, nullptr)`, `new_ref(v)` and
`new_ref()`, copy construction, assignment and drop (in either setting of the
counting switch, and short enough for the number of objects to stay below
`2^64`), the only failure is the panic of a failed allocation, never undefined
behaviour; and when the program completes, any two non-empty references with
the same payload address have the same count-cell address. Moreover every
payload held is still allocated and every count cell held holds the number of
its holders. -/
theorem one_cell_per_payload {T : Type} [Inhabited T] (cfg : Config) (h0 : Heap T)
    (prog : List (Stmt T)) (hlen : prog.length + 1 < UINT_MODULUS) :
    exec cfg { vars := [], heap := h0 } prog = .panic .ERROR_MEMORY_ALLOCATION_FAILED ∨
    ∃ s, exec cfg { vars := [], heap := h0 } prog = .ret s ∧
      (∀ r1 ∈ s.vars, ∀ r2 ∈ s.vars, r1.ne_nullptr = true → r2.ne_nullptr = true →
        r1.alloc = r2.alloc → r1.ref = r2.ref) ∧
      (∀ r ∈ s.vars, r.ne_nullptr = true → (s.heap.objs r.alloc).isSome = true) ∧
      (∀ r ∈ s.vars, r.ref ≠ 0 → s.heap.cnts r.ref = some (holders r.ref s.vars)) := by
  have hinit : counted_inv { vars := [], heap := h0 } := by
    refine ⟨?_, ?_, ?_, ?_⟩ <;> intro r hr <;> simp at hr
  rcases counted_exec cfg prog _ hinit (by simpa using hlen) with h | ⟨s, h1, -, i2, i3, i4⟩
  · exact Or.inl h
  · refine Or.inr ⟨s, h1, ?_, ?_, fun r hr hne => (i2 r hr hne).2⟩
    · intro r1 hr1 r2 hr2 hn1 _ he
      exact i3 r1 hr1 r2 hr2 (by simpa [Ref.ne_nullptr, Ref.eq_nullptr] using hn1) he
    · intro r hr hn
      exact i4 r hr (by simpa [Ref.ne_nullptr, Ref.eq_nullptr] using hn)

/-- C6 at a concrete input: two creations, a copy and an assignment run to
completion, and the property holds in the state reached. -/
theorem one_cell_per_payload_witness :
    [Stmt.make 10, Stmt.op (RefOp.copy 0), Stmt.make 11, Stmt.op (RefOp.assign 2 0)].length + 1
      < UINT_MODULUS ∧
    ∃ s, exec Config.default_build { vars := [], heap := Heap.blank [true, true, true, true] }
        [Stmt.make 10, Stmt.op (RefOp.copy 0), Stmt.make 11, Stmt.op (RefOp.assign 2 0)]
        = .ret s ∧
      s.vars = [{ alloc := 2, ref := 1 }, { alloc := 2, ref := 1 }, { alloc := 2, ref := 1 }] ∧
      (∀ r1 ∈ s.vars, ∀ r2 ∈ s.vars, r1.ne_nullptr = true → r2.ne_nullptr = true →
        r1.alloc = r2.alloc → r1.ref = r2.ref) := by
  have hl : [Stmt.make 10, Stmt.op (RefOp.copy 0), Stmt.make 11,
      Stmt.op (RefOp.assign 2 0)].length + 1 < UINT_MODULUS := by
    unfold UINT_MODULUS; norm_num
  have he : ∃ s, exec Config.default_build
      { vars := [], heap := Heap.blank [true, true, true, true] }
      [Stmt.make 10, Stmt.op (RefOp.copy 0), Stmt.make 11, Stmt.op (RefOp.assign 2 0)]
      = .ret s ∧
      s.vars = [{ alloc := 2, ref := 1 }, { alloc := 2, ref := 1 }, { alloc := 2, ref := 1 }] :=
    ⟨_, rfl, rfl⟩
  obtain ⟨s0, hs0, hv0⟩ := he
  rcases one_cell_per_payload Config.default_build (Heap.blank [true, true, true, true])
    [Stmt.make 10, Stmt.op (RefOp.copy 0), Stmt.make 11, Stmt.op (RefOp.assign 2 0)] hl
    with h | ⟨s, h1, h2, -⟩
  · rw [hs0] at h
    cases h
  · rw [hs0] at h1
    cases h1
    exact ⟨hl, s0, hs0, hv0, h2⟩

/-! ## Properties of `jule::Any` -/

/-! ### Boxing -/

theorem first_ok_plan {V : Type} (h : Heap V) (hp : h.first_ok) :
    ∃ rest, h.plan = true :: rest := by
  unfold Heap.first_ok at hp
  rcases hq : h.plan with _ | ⟨b, rest⟩
  · simp [hq] at hp
  · simp [hq] at hp
    exact ⟨rest, by rw [hp]⟩

/-- The member `__assign` when the allocation succeeds. -/
theorem any_assign_ok {κ V : Type} (ts : Types κ V) (k : κ) (v : V) (self : Any κ)
    (h : Heap V) (rest : List Bool) (hp : h.plan = true :: rest) :
    Any.__assign ts k v self h
      = .ret ({ data := h.brk + 1, type := some k }, h.push_obj v rest) := by
  simp [Any.__assign, new_nothrow_T, hp, store_T, Heap.push_obj]

/-- The member `__assign` when the allocation fails. -/
theorem any_assign_fail {κ V : Type} (ts : Types κ V) (k : κ) (v : V) (self : Any κ)
    (h : Heap V) (hp : ¬ h.first_ok) :
    Any.__assign ts k v self h = .panic .ERROR_MEMORY_ALLOCATION_FAILED := by
  unfold Heap.first_ok at hp
  rcases hq : h.plan with _ | ⟨b, rest⟩
  · simp [Any.__assign, new_nothrow_T, hq]
  · cases b
    · simp [Any.__assign, new_nothrow_T, hq]
    · simp [hq] at hp

/-- The type test on a non-empty object with a type table. -/
theorem type_is_bound {κ V : Type} (ts : Types κ V) (a : Any κ) (k kt : κ)
    (hd : a.data ≠ 0) (ht : a.type = some kt) :
    Any.type_is ts (.concrete k) a = .ret (decide (ts.type_id kt = ts.type_id k)) := by
  simp [Any.type_is, Any.eq_nullptr, hd, ht, DynamicType.type_id]

/-- The conversion of a non-empty object that holds the asked type. -/
theorem to_T_bound {κ V : Type} (ts : Types κ V) (cfg : Config) (a : Any κ) (k kt : κ)
    (v : V) (h : Heap V) (hd : a.data ≠ 0) (ht : a.type = some kt)
    (hid : ts.type_id kt = ts.type_id k) (ho : h.objs a.data = some v) :
    Any.to_T ts cfg k a h = .ret v := by
  cases hs : cfg.disable_safety <;>
    simp [Any.to_T, hs, Any.eq_nullptr, hd, type_is_bound ts a k kt hd ht, hid, Ref.load, ho]

/-! ### C11: box and unbox -/

/-- C11: for every concrete type `T` and value `v`, when the payload
allocation succeeds the `Any` constructed from `v` is non-empty, `type_is<T>()`
is true, the conversion to `T` returns `v` (with or without safety checks, so
without panic), `type_is<U>()` is false for every type `U` whose name differs
from the name of `T`, and `type_is<std::nullptr_t>()` is false; when the
allocation fails the constructor panics. -/
theorem box_unbox_spec {κ V : Type} (ts : Types κ V) (cfg : Config) (k : κ) (v : V)
    (h : Heap V) :
    (h.first_ok →
      ∃ a h1, Any.from_value ts k v h = .ret (a, h1) ∧
        a.ne_nullptr = true ∧
        Any.type_is ts (.concrete k) a = .ret true ∧
        Any.to_T ts cfg k a h1 = .ret v ∧
        (∀ u, ts.type_id u ≠ ts.type_id k →
          Any.type_is ts (.concrete u) a = .ret false) ∧
        Any.type_is ts .nullptr_t a = .ret false) ∧
    (¬ h.first_ok →
      Any.from_value ts k v h = .panic .ERROR_MEMORY_ALLOCATION_FAILED) := by
  constructor
  · intro hp
    obtain ⟨rest, hq⟩ := first_ok_plan h hp
    have hd : ({ data := h.brk + 1, type := some k } : Any κ).data ≠ 0 := by simp
    refine ⟨{ data := h.brk + 1, type := some k }, h.push_obj v rest,
      any_assign_ok ts k v {} h rest hq, by simp [Any.ne_nullptr, Any.eq_nullptr], ?_, ?_,
      ?_, rfl⟩
    · rw [type_is_bound ts _ k k hd rfl]
      simp
    · exact to_T_bound ts cfg _ k k v _ hd rfl rfl (by simp [Heap.push_obj])
    · intro u hu
      rw [type_is_bound ts _ u k hd rfl]
      simp [Ne.symm hu]
  · intro hp
    exact any_assign_fail ts k v {} h hp

/-- C11 at a concrete input: the integer 42 boxed on the blank heap. -/
theorem box_unbox_spec_witness :
    (Heap.blank_any [true]).first_ok ∧
    ∃ a h1, Any.from_value Types.sample .int_t (.int 42) (Heap.blank_any [true])
        = .ret (a, h1) ∧
      Any.type_is Types.sample (.concrete .int_t) a = .ret true ∧
      Any.to_T Types.sample Config.default_build .int_t a h1 = .ret (.int 42) ∧
      Any.type_is Types.sample (.concrete .str_t) a = .ret false := by
  obtain ⟨a, h1, e1, -, e2, e3, e4, -⟩ :=
    (box_unbox_spec Types.sample Config.default_build SampleType.int_t (SampleVal.int 42)
      (Heap.blank_any [true])).1 (by decide)
  exact ⟨by decide, a, h1, e1, e2, e3, e4 SampleType.str_t (by decide)⟩

/-! ### C12: conversion with safety checks -/

/-- C12: with safety checks enabled, the conversion of `a` to the concrete
type `T` panics with `ERROR_INVALID_MEMORY` when `a` is empty, panics with
`ERROR_INCOMPATIBLE_TYPE` when `a` is non-empty and the name of its bound type
differs from the name of `T`, and returns the payload when `a` is non-empty,
the names agree and the payload is allocated. So for an `a` that is empty or
has a bound type and an allocated payload, the conversion panics if and only
if `a` is empty or holds a type of another name. -/
theorem cast_checked_spec {κ V : Type} (ts : Types κ V) (cfg : Config) (k : κ)
    (a : Any κ) (h : Heap V) (hs : cfg.disable_safety = false) :
    (a.data = 0 → Any.to_T ts cfg k a h = .panic .ERROR_INVALID_MEMORY) ∧
    (∀ kt, a.data ≠ 0 → a.type = some kt → ts.type_id kt ≠ ts.type_id k →
      Any.to_T ts cfg k a h = .panic .ERROR_INCOMPATIBLE_TYPE) ∧
    (∀ kt v, a.data ≠ 0 → a.type = some kt → ts.type_id kt = ts.type_id k →
      h.objs a.data = some v → Any.to_T ts cfg k a h = .ret v) ∧
    ((a.data = 0 ∨ ∃ kt v, a.type = some kt ∧ h.objs a.data = some v) →
      ((∃ e, Any.to_T ts cfg k a h = .panic e) ↔
        (a.data = 0 ∨ ∃ kt, a.type = some kt ∧ ts.type_id kt ≠ ts.type_id k))) := by
  have h1 : a.data = 0 → Any.to_T ts cfg k a h = .panic .ERROR_INVALID_MEMORY := by
    intro hd
    simp [Any.to_T, hs, Any.eq_nullptr, hd]
  have h2 : ∀ kt, a.data ≠ 0 → a.type = some kt → ts.type_id kt ≠ ts.type_id k →
      Any.to_T ts cfg k a h = .panic .ERROR_INCOMPATIBLE_TYPE := by
    intro kt hd ht hid
    simp [Any.to_T, hs, Any.eq_nullptr, hd, type_is_bound ts a k kt hd ht, hid]
  have h3 : ∀ kt v, a.data ≠ 0 → a.type = some kt → ts.type_id kt = ts.type_id k →
      h.objs a.data = some v → Any.to_T ts cfg k a h = .ret v := by
    intro kt v hd ht hid ho
    exact to_T_bound ts cfg a k kt v h hd ht hid ho
  refine ⟨h1, h2, h3, ?_⟩
  intro hwf
  constructor
  · rintro ⟨e, he⟩
    by_cases hd : a.data = 0
    · exact Or.inl hd
    · rcases hwf with h0 | ⟨kt, v, ht, ho⟩
      · exact absurd h0 hd
      · right
        refine ⟨kt, ht, ?_⟩
        intro hid
        rw [h3 kt v hd ht hid ho] at he
        cases he
  · rintro (hd | ⟨kt, ht, hid⟩)
    · exact ⟨_, h1 hd⟩
    · by_cases hd : a.data = 0
      · exact ⟨_, h1 hd⟩
      · exact ⟨_, h2 kt hd ht hid⟩

/-- C12 at the scenario of the specification: an `Any` boxing the integer 42
converts to the integer type as 42 and panics with `ERROR_INCOMPATIBLE_TYPE`
when converted to the string type; the empty `Any` panics with
`ERROR_INVALID_MEMORY`. -/
theorem cast_checked_spec_witness :
    Config.default_build.disable_safety = false ∧
    Any.to_T Types.sample Config.default_build .int_t
      { data := 1, type := some .int_t } ((Heap.blank_any []).push_obj (.int 42) [])
      = .ret (.int 42) ∧
    Any.to_T Types.sample Config.default_build .str_t
      { data := 1, type := some .int_t } ((Heap.blank_any []).push_obj (.int 42) [])
      = .panic .ERROR_INCOMPATIBLE_TYPE ∧
    Any.to_T Types.sample Config.default_build .int_t {}
      ((Heap.blank_any []).push_obj (.int 42) []) = .panic .ERROR_INVALID_MEMORY :=
  ⟨rfl,
    (cast_checked_spec Types.sample Config.default_build SampleType.int_t
      { data := 1, type := some .int_t } ((Heap.blank_any []).push_obj (.int 42) [])
      rfl).2.2.1 SampleType.int_t (SampleVal.int 42) (by decide) rfl rfl
      (by simp [Heap.push_obj, Heap.blank_any]),
    (cast_checked_spec Types.sample Config.default_build SampleType.str_t
      { data := 1, type := some .int_t } ((Heap.blank_any []).push_obj (.int 42) [])
      rfl).2.1 SampleType.int_t (by decide) rfl (by decide),
    (cast_checked_spec Types.sample Config.default_build SampleType.int_t
      {} ((Heap.blank_any []).push_obj (.int 42) []) rfl).1 rfl⟩

/-! ### Deallocation and copy on well-formed objects -/

theorem any_dealloc_empty {κ V : Type} (a : Any κ) (h : Heap V) (hd : a.data = 0) :
    Any.dealloc a h = .ret ({ data := 0, type := none }, h) := by
  simp [Any.dealloc, hd]

theorem any_dealloc_bound {κ V : Type} (a : Any κ) (kt : κ) (v : V) (h : Heap V)
    (hd : a.data ≠ 0) (ht : a.type = some kt) (ho : h.objs a.data = some v) :
    Any.dealloc a h = .ret ({ data := 0, type := none }, released_T a.data h) := by
  simp [Any.dealloc, hd, ht, DynamicType.dealloc, delete_T, ho]

/-- Deallocation of an object whose payload pointer designates no allocated
payload is undefined behaviour. -/
theorem any_dealloc_dangling {κ V : Type} (a : Any κ) (kt : κ) (h : Heap V)
    (hd : a.data ≠ 0) (ht : a.type = some kt) (ho : h.objs a.data = none) :
    Any.dealloc a h = .undefined := by
  simp [Any.dealloc, hd, ht, DynamicType.dealloc, delete_T, ho]

/-- The member `__get_copy` from a non-empty source with an allocated payload,
when the allocation succeeds. -/
theorem any_get_copy_ok {κ V : Type} (ts : Types κ V) (self a : Any κ) (k : κ) (v : V)
    (h : Heap V) (rest : List Bool) (hd : a.data ≠ 0) (ht : a.type = some k)
    (ho : h.objs a.data = some v) (hb : a.data ≤ h.brk) (hp : h.plan = true :: rest) :
    Any.__get_copy ts self a h
      = .ret ({ data := h.brk + 1, type := some k }, h.push_obj v rest) := by
  have hne : a.data ≠ h.brk + 1 := by omega
  simp [Any.__get_copy, Any.eq_nullptr, hd, ht, DynamicType.alloc_new_copy, new_nothrow_T,
    hp, Function.update_noteq hne, ho, store_T, Heap.push_obj]

/-- The member `__get_copy` from a non-empty source when the allocation
fails. -/
theorem any_get_copy_fail {κ V : Type} (ts : Types κ V) (self a : Any κ) (k : κ)
    (h : Heap V) (hd : a.data ≠ 0) (ht : a.type = some k) (hp : ¬ h.first_ok) :
    Any.__get_copy ts self a h = .panic .ERROR_MEMORY_ALLOCATION_FAILED := by
  unfold Heap.first_ok at hp
  rcases hq : h.plan with _ | ⟨b, rest⟩
  · simp [Any.__get_copy, Any.eq_nullptr, hd, ht, DynamicType.alloc_new_copy,
      new_nothrow_T, hq]
  · cases b
    · simp [Any.__get_copy, Any.eq_nullptr, hd, ht, DynamicType.alloc_new_copy,
        new_nothrow_T, hq]
    · simp [hq] at hp

/-! ### C13: payload and descriptor of the source of a move -/

/-- C13 fails on the code: after `Any a = 42; Any b(std::move(a));` the new
object `b` has the payload and the type table of `a`, and the source `a` has a
null payload pointer and still the pointer to the type table of the integer
type: its payload pointer is null and its descriptor pointer is not. -/
theorem move_source_keeps_descriptor :
    ∃ a h1 b a1,
      Any.from_value Types.sample .int_t (.int 42) (Heap.blank_any [true]) = .ret (a, h1) ∧
      Any.move a = (b, a1) ∧ b = a ∧
      a1.data = 0 ∧ a1.type = some .int_t ∧
      ¬ (a1.data = 0 ↔ a1.type = none) := by
  refine ⟨{ data := 1, type := some .int_t }, _, { data := 1, type := some .int_t },
    { data := 0, type := some .int_t },
    any_assign_ok Types.sample .int_t (.int 42) {} (Heap.blank_any [true]) [] rfl,
    rfl, rfl, rfl, rfl, ?_⟩
  simp

/-! ### C15: copies do not alias -/

theorem push_obj_other {V : Type} (h : Heap V) (v : V) (rest : List Bool) (p : Nat)
    (hp : p ≠ h.brk + 1) : (h.push_obj v rest).objs p = h.objs p := by
  simp [Heap.push_obj, Function.update_noteq hp]

theorem released_T_other {V : Type} (h : Heap V) (q p : Nat) (hp : p ≠ q) :
    (released_T q h).objs p = h.objs p := by
  by_cases hq : q = 0 <;> simp [released_T, hq, Function.update_noteq hp]

theorem released_T_brk {V : Type} (h : Heap V) (q : Nat) : (released_T q h).brk = h.brk := by
  by_cases hq : q = 0 <;> simp [released_T, hq]

theorem released_T_plan {V : Type} (h : Heap V) (q : Nat) :
    (released_T q h).plan = h.plan := by
  by_cases hq : q = 0 <;> simp [released_T, hq]

/-- The statement `b = jule::Any(w)` on an object `b` with an allocated
payload, when its two allocations succeed: it completes, `b` holds a new
payload equal to `w` with the type of `w`, and every payload allocated before
the statement, other than the previous payload of `b`, is as it was. -/
theorem assign_boxed_ok {κ V : Type} (ts : Types κ V) (k2 kb : κ) (w vb : V) (b : Any κ)
    (h : Heap V) (rest : List Bool) (hd : b.data ≠ 0) (ht : b.type = some kb)
    (ho : h.objs b.data = some vb) (hb : b.data ≤ h.brk)
    (hp : h.plan = true :: true :: rest) :
    ∃ b2 h2, Any.assign_boxed ts k2 w b h = .ret (b2, h2) ∧
      b2.data ≠ 0 ∧ b2.type = some k2 ∧ h2.objs b2.data = some w ∧
      (∀ p, p ≤ h.brk → p ≠ b.data → h2.objs p = h.objs p) := by
  have hfv : Any.from_value ts k2 w h
      = .ret ({ data := h.brk + 1, type := some k2 }, h.push_obj w (true :: rest)) :=
    any_assign_ok ts k2 w {} h (true :: rest) hp
  have hne : b.data ≠ h.brk + 1 := by omega
  have ho1 : (h.push_obj w (true :: rest)).objs b.data = some vb := by
    rw [push_obj_other _ _ _ _ hne, ho]
  have hde : Any.dealloc b (h.push_obj w (true :: rest))
      = .ret ({ data := 0, type := none }, released_T b.data (h.push_obj w (true :: rest))) :=
    any_dealloc_bound b kb vb _ hd ht ho1
  have ho2 : (released_T b.data (h.push_obj w (true :: rest))).objs (h.brk + 1) = some w := by
    rw [released_T_other _ _ _ (Ne.symm hne)]
    simp [Heap.push_obj]
  have hb2 : (released_T b.data (h.push_obj w (true :: rest))).brk = h.brk + 1 := by
    rw [released_T_brk]
    rfl
  have hp2 : (released_T b.data (h.push_obj w (true :: rest))).plan = true :: rest := by
    rw [released_T_plan]
    rfl
  have hgc : Any.__get_copy ts { data := 0, type := none }
      { data := h.brk + 1, type := some k2 } (released_T b.data (h.push_obj w (true :: rest)))
      = .ret ({ data := (released_T b.data (h.push_obj w (true :: rest))).brk + 1,
                type := some k2 },
          (released_T b.data (h.push_obj w (true :: rest))).push_obj w rest) :=
    any_get_copy_ok ts _ { data := h.brk + 1, type := some k2 } k2 w _ rest (by simp) rfl
      ho2 (by rw [hb2]) hp2
  have has : Any.assign_any ts b (.other { data := h.brk + 1, type := some k2 })
      (h.push_obj w (true :: rest))
      = .ret ({ data := (released_T b.data (h.push_obj w (true :: rest))).brk + 1,
                type := some k2 },
          (released_T b.data (h.push_obj w (true :: rest))).push_obj w rest) := by
    simp only [Any.assign_any, Any.Source.get, hde]
    rw [if_neg (fun e => hne e.2)]
    exact hgc
  have hne3 : h.brk + 1
      ≠ (released_T b.data (h.push_obj w (true :: rest))).brk + 1 := by
    rw [hb2]
    omega
  have ho3 : ((released_T b.data (h.push_obj w (true :: rest))).push_obj w rest).objs
      (h.brk + 1) = some w := by
    rw [push_obj_other _ _ _ _ hne3, ho2]
  have hdt : Any.dealloc ({ data := h.brk + 1, type := some k2 } : Any κ)
      ((released_T b.data (h.push_obj w (true :: rest))).push_obj w rest)
      = .ret ({ data := 0, type := none }, released_T (h.brk + 1)
          ((released_T b.data (h.push_obj w (true :: rest))).push_obj w rest)) :=
    any_dealloc_bound { data := h.brk + 1, type := some k2 } k2 w _ (by simp) rfl ho3
  refine ⟨{ data := (released_T b.data (h.push_obj w (true :: rest))).brk + 1,
            type := some k2 },
    released_T (h.brk + 1) ((released_T b.data (h.push_obj w (true :: rest))).push_obj w rest),
    by simp only [Any.assign_boxed, hfv, has, hdt], by simp, rfl, ?_, ?_⟩
  · show (released_T (h.brk + 1) _).objs _ = some w
    rw [released_T_other _ _ _ (Ne.symm hne3)]
    simp [Heap.push_obj]
  · intro p hpb hpn
    have e1 : p ≠ h.brk + 1 := by omega
    have e2 : p ≠ (released_T b.data (h.push_obj w (true :: rest))).brk + 1 := by
      rw [hb2]
      omega
    rw [released_T_other _ _ _ e1, push_obj_other _ _ _ _ e2, released_T_other _ _ _ hpn,
      push_obj_other _ _ _ _ e1]

/-- The statement `b = jule::Any(w)` on an object `b` with an allocated
payload panics when one of its two allocations fails. -/
theorem assign_boxed_fail {κ V : Type} (ts : Types κ V) (k2 kb : κ) (w vb : V) (b : Any κ)
    (h : Heap V) (hd : b.data ≠ 0) (ht : b.type = some kb)
    (ho : h.objs b.data = some vb) (hb : b.data ≤ h.brk)
    (hp : ¬ (h.first_ok ∧ h.second_ok)) :
    Any.assign_boxed ts k2 w b h = .panic .ERROR_MEMORY_ALLOCATION_FAILED := by
  by_cases h1 : h.first_ok
  · obtain ⟨rest, hq⟩ := first_ok_plan h h1
    have h2 : ¬ (Heap.first_ok (released_T b.data (h.push_obj w rest))) := by
      intro e
      apply hp
      refine ⟨h1, ?_⟩
      unfold Heap.first_ok at e
      rw [released_T_plan] at e
      unfold Heap.second_ok
      rw [hq]
      exact e
    have hfv : Any.from_value ts k2 w h
        = .ret ({ data := h.brk + 1, type := some k2 }, h.push_obj w rest) :=
      any_assign_ok ts k2 w {} h rest hq
    have hne : b.data ≠ h.brk + 1 := by omega
    have ho1 : (h.push_obj w rest).objs b.data = some vb := by
      rw [push_obj_other _ _ _ _ hne, ho]
    have hde : Any.dealloc b (h.push_obj w rest)
        = .ret ({ data := 0, type := none }, released_T b.data (h.push_obj w rest)) :=
      any_dealloc_bound b kb vb _ hd ht ho1
    have hgc : Any.__get_copy ts { data := 0, type := none }
        { data := h.brk + 1, type := some k2 } (released_T b.data (h.push_obj w rest))
        = .panic .ERROR_MEMORY_ALLOCATION_FAILED :=
      any_get_copy_fail ts _ { data := h.brk + 1, type := some k2 } k2 _ (by simp) rfl h2
    have has : Any.assign_any ts b (.other { data := h.brk + 1, type := some k2 })
        (h.push_obj w rest) = .panic .ERROR_MEMORY_ALLOCATION_FAILED := by
      simp only [Any.assign_any, Any.Source.get, hde]
      rw [if_neg (fun e => hne e.2)]
      exact hgc
    simp only [Any.assign_boxed, hfv, has]
  · have hfv : Any.from_value ts k2 w h = .panic .ERROR_MEMORY_ALLOCATION_FAILED :=
      any_assign_fail ts k2 w {} h h1
    simp only [Any.assign_boxed, hfv]

/-- The copy made at the next address of a heap in which `a` holds `v` is an
independent copy. -/
theorem independent_of_push {κ V : Type} (ts : Types κ V) (cfg : Config)
    (k : κ) (a : Any κ) (v : V) (h : Heap V) (rest : List Bool)
    (hd : a.data ≠ 0) (ht : a.type = some k) (ho : h.objs a.data = some v)
    (hb : a.data ≤ h.brk) :
    Any.independent_copy ts cfg k a v { data := h.brk + 1, type := some k }
      (h.push_obj v rest) := by
  have hne : a.data ≠ h.brk + 1 := by omega
  have hoa : (h.push_obj v rest).objs a.data = some v := by
    simp [Heap.push_obj, Function.update_noteq hne, ho]
  have hob : (h.push_obj v rest).objs (h.brk + 1) = some v := by
    simp [Heap.push_obj]
  have hbb : (h.brk + 1) ≤ (h.push_obj v rest).brk := Nat.le_refl _
  refine ⟨ht.symm, Ne.symm hne, by simp, hob, hoa,
    to_T_bound ts cfg _ k k v _ (by simp) rfl rfl hob,
    to_T_bound ts cfg a k k v _ hd ht rfl hoa, ?_, ?_, ?_⟩
  · intro k2 w
    constructor
    · intro hp
      obtain ⟨rest2, hq⟩ := first_second_ok _ hp.1 hp.2
      obtain ⟨b2, h2, hrun, hd2, ht2, ho2, hfr⟩ :=
        assign_boxed_ok ts k2 k w v { data := h.brk + 1, type := some k }
          (h.push_obj v rest) rest2 (by simp) rfl hob hbb hq
      have hoa2 : h2.objs a.data = some v := by
        rw [hfr a.data (Nat.le_succ_of_le hb) hne, hoa]
      exact ⟨b2, h2, hrun, to_T_bound ts cfg b2 k2 k2 w h2 hd2 ht2 rfl ho2, hoa2,
        to_T_bound ts cfg a k k v h2 hd ht rfl hoa2⟩
    · intro hp
      exact assign_boxed_fail ts k2 k w v { data := h.brk + 1, type := some k }
        (h.push_obj v rest) (by simp) rfl hob hbb hp
  · have hoa2 : (released_T (h.brk + 1) (h.push_obj v rest)).objs a.data = some v := by
      rw [released_T_other _ _ _ hne, hoa]
    exact ⟨_, _, any_dealloc_bound { data := h.brk + 1, type := some k } k v _ (by simp) rfl hob,
      rfl, hoa2, to_T_bound ts cfg a k k v _ hd ht rfl hoa2⟩
  · intro w
    have hoa2 : (store_T (h.brk + 1) w (h.push_obj v rest)).objs a.data = some v := by
      simp [store_T, Function.update_noteq hne, hoa]
    exact ⟨hoa2, to_T_bound ts cfg a k k v _ hd ht rfl hoa2⟩

/-- C15: let `a` be non-empty, holding the value `v` of type `T` in a payload
that the allocator handed out. When the allocation succeeds, the `Any`
obtained by copy construction from `a`, and the `Any` obtained by assigning
`a` to a different object `c` (one that does not share the payload of `a`, and
is empty or has a type table and an allocated payload), is an independent
copy: same type table, another payload address, payload equal to `v`; and
giving it a new content afterwards leaves the payload of `a` and the value
`a` unboxes to unchanged, whether by the statement `b = jule::Any(w)` for a
concrete value `w` of any type, by `b = nullptr`, or by a store to its
payload. When the allocation fails, both the construction and the assignment
panic. -/
theorem copy_independent_spec {κ V : Type} (ts : Types κ V)
    (cfg : Config) (k : κ) (a : Any κ) (v : V) (h : Heap V)
    (hd : a.data ≠ 0) (ht : a.type = some k) (ho : h.objs a.data = some v)
    (hb : a.data ≤ h.brk) :
    (h.first_ok →
      ∃ b h1, Any.copy ts a h = .ret (b, h1) ∧ Any.independent_copy ts cfg k a v b h1) ∧
    (¬ h.first_ok → Any.copy ts a h = .panic .ERROR_MEMORY_ALLOCATION_FAILED) ∧
    (∀ c : Any κ, c.data ≠ a.data →
      (c.data ≠ 0 → c.type ≠ none ∧ (h.objs c.data).isSome = true) →
      (h.first_ok →
        ∃ b h1, Any.assign_any ts c (.other a) h = .ret (b, h1) ∧
          Any.independent_copy ts cfg k a v b h1) ∧
      (¬ h.first_ok →
        Any.assign_any ts c (.other a) h = .panic .ERROR_MEMORY_ALLOCATION_FAILED)) := by
  refine ⟨?_, ?_, ?_⟩
  · intro hp
    obtain ⟨rest, hq⟩ := first_ok_plan h hp
    exact ⟨_, _, any_get_copy_ok ts {} a k v h rest hd ht ho hb hq,
      independent_of_push ts cfg k a v h rest hd ht ho hb⟩
  · intro hp
    exact any_get_copy_fail ts {} a k h hd ht hp
  · intro c hca hct
    have hg : ¬ (c.data ≠ 0 ∧ c.data = (Any.Source.get c (.other a)).data) :=
      fun e => hca e.2
    by_cases hc : c.data = 0
    · have hrun : Any.assign_any ts c (.other a) h
          = Any.__get_copy ts { data := 0, type := none } a h := by
        simp [Any.assign_any, Any.Source.get, hc, any_dealloc_empty c h hc]
      rw [hrun]
      constructor
      · intro hp
        obtain ⟨rest, hq⟩ := first_ok_plan h hp
        exact ⟨_, _, any_get_copy_ok ts _ a k v h rest hd ht ho hb hq,
          independent_of_push ts cfg k a v h rest hd ht ho hb⟩
      · intro hp
        exact any_get_copy_fail ts _ a k h hd ht hp
    · obtain ⟨kc, hkc⟩ := Option.ne_none_iff_exists'.1 (hct hc).1
      obtain ⟨vc, hvc⟩ := Option.isSome_iff_exists.1 (hct hc).2
      have hrun : Any.assign_any ts c (.other a) h
          = Any.__get_copy ts { data := 0, type := none } a (released_T c.data h) := by
        simp [Any.assign_any, Any.Source.get, hca, any_dealloc_bound c kc vc h hc hkc hvc]
      have ho1 : (released_T c.data h).objs a.data = some v := by
        rw [released_T_other _ _ _ (Ne.symm hca), ho]
      have hb1 : a.data ≤ (released_T c.data h).brk := by
        rw [released_T_brk]
        exact hb
      have hpl : (released_T c.data h).plan = h.plan := released_T_plan h c.data
      rw [hrun]
      constructor
      · intro hp
        obtain ⟨rest, hq⟩ := first_ok_plan h hp
        exact ⟨_, _, any_get_copy_ok ts _ a k v _ rest hd ht ho1 hb1 (hpl.trans hq),
          independent_of_push ts cfg k a v _ rest hd ht ho1 hb1⟩
      · intro hp
        exact any_get_copy_fail ts _ a k _ hd ht
          (by unfold Heap.first_ok at hp ⊢; rw [hpl]; exact hp)

/-- C15 at a concrete input: the copy of an `Any` that boxes 42, with three
more allocations to come, is an independent copy. -/
theorem copy_independent_spec_witness :
    ((Heap.blank_any []).push_obj (.int 42) [true, true, true]).first_ok ∧
    ∃ b h1, Any.copy Types.sample { data := 1, type := some .int_t }
        ((Heap.blank_any []).push_obj (.int 42) [true, true, true]) = .ret (b, h1) ∧
      Any.independent_copy Types.sample Config.default_build .int_t
        { data := 1, type := some .int_t } (.int 42) b h1 :=
  ⟨by decide,
    (copy_independent_spec Types.sample Config.default_build SampleType.int_t
      { data := 1, type := some .int_t } (SampleVal.int 42)
      ((Heap.blank_any []).push_obj (.int 42) [true, true, true]) (by decide) rfl
      (by simp [Heap.push_obj, Heap.blank_any]) (by decide)).1 (by decide)⟩

/-! ### C16: equality of two non-empty objects -/

/-- C16, as the code has it: let `a` and `b` be non-empty with bound types and
allocated payloads. If their payload addresses differ, `a == b` is true if and
only if the names of their types are equal and the equality operation of the
type of `a` returns true on the two payloads. If their payload addresses are
the same (as when `a` and `b` are one object), `a == b` is true and the
equality operation is not consulted. -/
theorem any_eq_spec {κ V : Type} (ts : Types κ V) (a b : Any κ) (ka kb : κ) (va vb : V)
    (h : Heap V) (hda : a.data ≠ 0) (hdb : b.data ≠ 0)
    (hta : a.type = some ka) (htb : b.type = some kb)
    (hoa : h.objs a.data = some va) (hob : h.objs b.data = some vb) :
    (a.data ≠ b.data →
      Any.eq ts a b h = .ret (decide (ts.type_id ka = ts.type_id kb) && ts.eq ka va vb) ∧
      (Any.eq ts a b h = .ret true ↔
        ts.type_id ka = ts.type_id kb ∧ ts.eq ka va vb = true)) ∧
    (a.data = b.data → Any.eq ts a b h = .ret true) := by
  constructor
  · intro hne
    have hrun : Any.eq ts a b h
        = .ret (decide (ts.type_id ka = ts.type_id kb) && ts.eq ka va vb) := by
      by_cases hid : ts.type_id ka = ts.type_id kb
      · simp [Any.eq, hne, Any.eq_nullptr, hda, hdb, hta, htb, DynamicType.type_id, hid,
          DynamicType.eq, hoa, hob]
      · simp [Any.eq, hne, Any.eq_nullptr, hda, hdb, hta, htb, DynamicType.type_id, hid]
    refine ⟨hrun, ?_⟩
    rw [hrun]
    simp
  · intro he
    have hg : a.data ≠ 0 ∧ a.data = b.data := ⟨hda, he⟩
    simp only [Any.eq, if_pos hg]

/-- C16 at a concrete input: two boxes of 42 at different addresses are
equal. -/
theorem any_eq_spec_witness :
    Any.eq Types.sample { data := 1, type := some .int_t } { data := 2, type := some .int_t }
      (((Heap.blank_any []).push_obj (.int 42) []).push_obj (.int 42) []) = .ret true := by
  have hw := (any_eq_spec Types.sample { data := 1, type := some .int_t }
    { data := 2, type := some .int_t } SampleType.int_t SampleType.int_t
    (SampleVal.int 42) (SampleVal.int 42)
    (((Heap.blank_any []).push_obj (.int 42) []).push_obj (.int 42) [])
    (by decide) (by decide) rfl rfl
    (by simp [Heap.push_obj, Heap.blank_any]) (by simp [Heap.push_obj, Heap.blank_any])).1
    (by decide)
  exact hw.2.2 ⟨rfl, by decide⟩

/-- C16 fails as stated: an `Any` that boxes the floating-point value "not a
number" is equal to itself by `operator==`, although the equality operation
of its type returns false on its payload and itself. -/
theorem any_eq_same_object_counterexample :
    ∃ a h1,
      Any.from_value Types.sample .f64_t (.f64 none) (Heap.blank_any [true]) = .ret (a, h1) ∧
      a.data ≠ 0 ∧ a.type = some .f64_t ∧ h1.objs a.data = some (.f64 none) ∧
      Any.eq Types.sample a a h1 = .ret true ∧
      DynamicType.eq Types.sample .f64_t a.data a.data h1 = .ret false ∧
      ¬ (Any.eq Types.sample a a h1 = .ret true ↔
          (Types.sample.type_id .f64_t = Types.sample.type_id .f64_t ∧
            DynamicType.eq Types.sample .f64_t a.data a.data h1 = .ret true)) := by
  have hrun : Any.eq Types.sample { data := 1, type := some SampleType.f64_t }
      { data := 1, type := some SampleType.f64_t }
      ((Heap.blank_any [true]).push_obj (.f64 none) []) = .ret true := by
    simp [Any.eq]
  have heq : DynamicType.eq Types.sample .f64_t 1 1
      ((Heap.blank_any [true]).push_obj (.f64 none) []) = .ret false := by
    simp [DynamicType.eq, Heap.push_obj, Heap.blank_any, Types.sample, SampleVal.f64_eq]
  refine ⟨{ data := 1, type := some .f64_t }, _,
    any_assign_ok Types.sample .f64_t (.f64 none) {} (Heap.blank_any [true]) [] rfl,
    by decide, rfl, by simp [Heap.push_obj, Heap.blank_any], hrun, heq, ?_⟩
  rw [hrun, heq]
  simp

/-! ### C17: the empty object -/

/-- C17: let `a` be empty (null payload pointer). For every `b`, whatever its
fields, `a == b` and `b == a` both return whether `b` is empty, so both are
true if and only if `b` is empty; `a == nullptr` is true, and for every object
`c == nullptr` is true if and only if `c` is empty; and for every concrete
type and value `v`, `a == v` is false (the conversion is not evaluated, so
nothing panics). -/
theorem empty_eq_spec {κ V : Type} (ts : Types κ V) (cfg : Config) (a : Any κ)
    (h : Heap V) (ha : a.data = 0) :
    (∀ b : Any κ, Any.eq ts a b h = .ret (decide (b.data = 0)) ∧
      Any.eq ts b a h = .ret (decide (b.data = 0)) ∧
      ((Any.eq ts a b h = .ret true ∧ Any.eq ts b a h = .ret true) ↔ b.data = 0)) ∧
    a.eq_nullptr = true ∧
    (∀ c : Any κ, c.eq_nullptr = true ↔ c.data = 0) ∧
    (∀ k v, Any.eq_value ts cfg k v a h = .ret false) := by
  have h1 : ∀ b : Any κ, Any.eq ts a b h = .ret (decide (b.data = 0)) := by
    intro b
    by_cases hb : b.data = 0 <;> simp [Any.eq, Any.eq_nullptr, ha, hb]
  have h2 : ∀ b : Any κ, Any.eq ts b a h = .ret (decide (b.data = 0)) := by
    intro b
    by_cases hb : b.data = 0
    · simp [Any.eq, Any.eq_nullptr, ha, hb]
    · have hg : ¬ (b.data ≠ 0 ∧ b.data = a.data) := fun e => hb (e.2.trans ha)
      simp [Any.eq, Any.eq_nullptr, ha, hb]
  refine ⟨fun b => ⟨h1 b, h2 b, ?_⟩, by simp [Any.eq_nullptr, ha], ?_, ?_⟩
  · rw [h1 b, h2 b]
    simp
  · intro c
    simp [Any.eq_nullptr]
  · intro k v
    simp [Any.eq_value, Any.type_is, Any.eq_nullptr, ha]

/-- C17 at a concrete input: the empty `Any` against an empty one, against a
box of 42 and against the value 42. -/
theorem empty_eq_spec_witness :
    Any.eq Types.sample {} {} (Heap.blank_any []) = .ret true ∧
    Any.eq Types.sample {} { data := 1, type := some .int_t }
      ((Heap.blank_any []).push_obj (.int 42) []) = .ret false ∧
    Any.eq Types.sample { data := 1, type := some .int_t } {}
      ((Heap.blank_any []).push_obj (.int 42) []) = .ret false ∧
    Any.eq_value Types.sample Config.default_build .int_t (.int 42) {}
      (Heap.blank_any []) = .ret false :=
  ⟨((empty_eq_spec Types.sample Config.default_build {} (Heap.blank_any []) rfl).1 {}).1,
    ((empty_eq_spec Types.sample Config.default_build {}
      ((Heap.blank_any []).push_obj (.int 42) []) rfl).1
        { data := 1, type := some .int_t }).1,
    ((empty_eq_spec Types.sample Config.default_build {}
      ((Heap.blank_any []).push_obj (.int 42) []) rfl).1
        { data := 1, type := some .int_t }).2.1,
    (empty_eq_spec Types.sample Config.default_build {} (Heap.blank_any []) rfl).2.2.2
      SampleType.int_t (SampleVal.int 42)⟩

/-! ### C18: values of different types -/

/-- The two objects and the heap after two successful boxings in a row. -/
theorem box_two {κ V : Type} (ts : Types κ V) (t u : κ) (v w : V) (h : Heap V)
    (rest : List Bool) (hp : h.plan = true :: true :: rest) :
    Any.from_value ts t v h
      = .ret ({ data := h.brk + 1, type := some t }, h.push_obj v (true :: rest)) ∧
    Any.from_value ts u w (h.push_obj v (true :: rest))
      = .ret ({ data := h.brk + 2, type := some u },
          (h.push_obj v (true :: rest)).push_obj w rest) ∧
    ((h.push_obj v (true :: rest)).push_obj w rest).objs (h.brk + 1) = some v ∧
    ((h.push_obj v (true :: rest)).push_obj w rest).objs (h.brk + 2) = some w :=
  ⟨any_assign_ok ts t v {} h (true :: rest) hp,
    any_assign_ok ts u w {} (h.push_obj v (true :: rest)) rest rfl,
    by simp [Heap.push_obj], by simp [Heap.push_obj]⟩

/-- C18: let `T` and `U` be concrete types with different names, `v` a value
of `T` and `w` a value of `U`, and let the two boxings succeed. Then
`box(v) == box(w)` is false, `box(w) == box(v)` is false and `box(v) == w` is
false, for every equality operation that the two types may have and for all
payload representations (also for `v` and `w` the same representation), so the
result does not come from an equality operation. And for `v` and `v2` of the
same type `T` on which the equality of `T` returns true, `box(v) == box(v2)`
is true. -/
theorem distinct_types_never_equal {κ V : Type} (ts : Types κ V) (cfg : Config)
    (t u : κ) (v w : V) (h : Heap V) (hp1 : h.first_ok) (hp2 : h.second_ok) :
    (ts.type_id t ≠ ts.type_id u →
      ∃ a h1 b h2, Any.from_value ts t v h = .ret (a, h1) ∧
        Any.from_value ts u w h1 = .ret (b, h2) ∧
        Any.eq ts a b h2 = .ret false ∧ Any.eq ts b a h2 = .ret false ∧
        Any.eq_value ts cfg u w a h2 = .ret false) ∧
    (ts.eq t v w = true →
      ∃ a h1 b h2, Any.from_value ts t v h = .ret (a, h1) ∧
        Any.from_value ts t w h1 = .ret (b, h2) ∧
        Any.eq ts a b h2 = .ret true) := by
  obtain ⟨rest, hp⟩ := first_second_ok h hp1 hp2
  constructor
  · intro hid
    obtain ⟨e1, e2, o1, o2⟩ := box_two ts t u v w h rest hp
    refine ⟨_, _, _, _, e1, e2, ?_, ?_, ?_⟩
    · simp [Any.eq, Any.eq_nullptr, DynamicType.type_id, hid]
    · simp [Any.eq, Any.eq_nullptr, DynamicType.type_id, Ne.symm hid]
    · have hti : Any.type_is ts (.concrete u) { data := h.brk + 1, type := some t }
          = .ret false := by
        rw [type_is_bound ts { data := h.brk + 1, type := some t } u t (by simp) rfl]
        simp [hid]
      simp [Any.eq_value, hti]
  · intro heq
    obtain ⟨e1, e2, o1, o2⟩ := box_two ts t t v w h rest hp
    refine ⟨_, _, _, _, e1, e2, ?_⟩
    simp [Any.eq, Any.eq_nullptr, DynamicType.type_id, DynamicType.eq, o1, o2, heq]

/-- C18 at a concrete input: the integer 42 and the string "42" boxed one
after the other. -/
theorem distinct_types_never_equal_witness :
    (Heap.blank_any [true, true]).first_ok ∧ (Heap.blank_any [true, true]).second_ok ∧
    Types.sample.type_id .int_t ≠ Types.sample.type_id .str_t ∧
    ∃ a h1 b h2,
      Any.from_value Types.sample .int_t (.int 42) (Heap.blank_any [true, true])
        = .ret (a, h1) ∧
      Any.from_value Types.sample .str_t (.str "42") h1 = .ret (b, h2) ∧
      Any.eq Types.sample a b h2 = .ret false ∧ Any.eq Types.sample b a h2 = .ret false ∧
      Any.eq_value Types.sample Config.default_build .str_t (.str "42") a h2
        = .ret false :=
  ⟨by decide, by decide, by decide,
    (distinct_types_never_equal Types.sample Config.default_build SampleType.int_t
      SampleType.str_t (SampleVal.int 42) (SampleVal.str "42")
      (Heap.blank_any [true, true]) (by decide) (by decide)).1 (by decide)⟩

/-! ## Properties of `jule::Fn` -/

/-! ### C19: wrappers of one plain function -/

/-- C19: let `f` be a plain function (code address `f`, not null). Every `Fn`
constructed from `f`, through the constructor that takes a `std::function`
(wherever the argument object lies) or through the constructor that takes a
function pointer, has `addr()` equal to the code address of `f`; so any two
wrappers of `f` compare equal. And for all wrappers `x` and `y`, `x == y` is
true if and only if `x.addr()` equals `y.addr()`. -/
theorem fn_plain_function_identity {α β : Type} (f : Nat) (code : α → β) (hf : f ≠ 0) :
    (∀ loc, (Fn.from_function (StdFunction.of_pointer f code) loc).addr = f) ∧
    (Fn.from_pointer f code).addr = f ∧
    (∀ loc1 loc2,
      (Fn.from_function (StdFunction.of_pointer f code) loc1).eq
        (Fn.from_function (StdFunction.of_pointer f code) loc2) = true) ∧
    (∀ loc,
      (Fn.from_function (StdFunction.of_pointer f code) loc).eq (Fn.from_pointer f code)
        = true ∧
      (Fn.from_pointer f code).eq (Fn.from_function (StdFunction.of_pointer f code) loc)
        = true) ∧
    (Fn.from_pointer f code).eq (Fn.from_pointer f code) = true ∧
    (∀ x y : Fn α β, x.eq y = true ↔ x.addr = y.addr) := by
  have h1 : ∀ loc, (Fn.from_function (StdFunction.of_pointer f code) loc).addr = f := by
    intro loc
    simp [Fn.from_function, StdFunction.of_pointer, addr_of_fn, Fn.addr, hf]
  have h2 : (Fn.from_pointer f code).addr = f := by
    simp [Fn.from_pointer, StdFunction.of_pointer, addr_of_fn, Fn.addr, hf]
  refine ⟨h1, h2, ?_, ?_, ?_, ?_⟩
  · intro loc1 loc2
    simp [Fn.eq, h1]
  · intro loc
    simp [Fn.eq, h1, h2]
  · simp [Fn.eq]
  · intro x y
    simp [Fn.eq]

/-- C19 at a concrete input: the function at the code address 4096 wrapped
through both constructors. -/
theorem fn_plain_function_identity_witness :
    (4096 : Nat) ≠ 0 ∧
    (Fn.from_function (StdFunction.of_pointer 4096 (fun n : Nat => n + 1)) 8000).addr = 4096 ∧
    (Fn.from_pointer 4096 (fun n : Nat => n + 1)).addr = 4096 ∧
    (Fn.from_function (StdFunction.of_pointer 4096 (fun n : Nat => n + 1)) 8000).eq
      (Fn.from_pointer 4096 (fun n : Nat => n + 1)) = true :=
  ⟨by decide,
    (fn_plain_function_identity 4096 (fun n : Nat => n + 1) (by decide)).1 8000,
    (fn_plain_function_identity 4096 (fun n : Nat => n + 1) (by decide)).2.1,
    ((fn_plain_function_identity 4096 (fun n : Nat => n + 1) (by decide)).2.2.2.1 8000).1⟩

/-! ### C20: wrappers of invocables without code address -/

/-- C20, as the code has it: let `g1` and `g2` be invocables from which no
code address can be extracted (`addr_of_fn` returns 0), handed to the
constructor in `std::function` objects at the addresses `loc1` and `loc2`.
Each wrapper takes the address of its argument object as identity, so the two
wrappers compare equal if and only if `loc1 = loc2`: they are unequal whenever
the two argument objects lie at different addresses, also for one and the
same invocable, and equal whenever the addresses coincide, also for different
invocables. -/
theorem fn_closure_identity {α β : Type} (g1 g2 : StdFunction α β) (loc1 loc2 : Nat)
    (h1 : addr_of_fn g1 = 0) (h2 : addr_of_fn g2 = 0) :
    (Fn.from_function g1 loc1).addr = loc1 ∧ (Fn.from_function g2 loc2).addr = loc2 ∧
    ((Fn.from_function g1 loc1).eq (Fn.from_function g2 loc2) = true ↔ loc1 = loc2) ∧
    (loc1 ≠ loc2 → (Fn.from_function g1 loc1).ne (Fn.from_function g2 loc2) = true) := by
  have e1 : (Fn.from_function g1 loc1).addr = loc1 := by
    simp [Fn.from_function, Fn.addr, h1]
  have e2 : (Fn.from_function g2 loc2).addr = loc2 := by
    simp [Fn.from_function, Fn.addr, h2]
  refine ⟨e1, e2, ?_, ?_⟩
  · simp [Fn.eq, e1, e2]
  · intro hne
    simp [Fn.ne, Fn.eq, e1, e2, hne]

/-- C20 at a concrete input: one closure handed over in two argument objects
at different addresses gives two unequal wrappers. -/
theorem fn_closure_identity_witness :
    addr_of_fn (StdFunction.closure (fun n : Nat => n + 1)) = 0 ∧
    (Fn.from_function (StdFunction.closure (fun n : Nat => n + 1)) 8000).ne
      (Fn.from_function (StdFunction.closure (fun n : Nat => n + 1)) 8032) = true :=
  ⟨rfl,
    (fn_closure_identity (StdFunction.closure (fun n : Nat => n + 1))
      (StdFunction.closure (fun n : Nat => n + 1)) 8000 8032 rfl rfl).2.2.2 (by decide)⟩

/-- C20 fails as stated: two closures that are defined independently and
compute different things, each handed to the constructor in an argument
object at the address 8000 (two temporaries, or a local of a function called
twice, one after the other), give wrappers that compare equal. -/
theorem fn_closure_counterexample :
    addr_of_fn (StdFunction.closure (fun n : Nat => n + 1)) = 0 ∧
    addr_of_fn (StdFunction.closure (fun n : Nat => n + 2)) = 0 ∧
    (fun n : Nat => n + 1) 0 ≠ (fun n : Nat => n + 2) 0 ∧
    (Fn.from_function (StdFunction.closure (fun n : Nat => n + 1)) 8000).eq
      (Fn.from_function (StdFunction.closure (fun n : Nat => n + 2)) 8000) = true := by
  refine ⟨rfl, rfl, by decide, ?_⟩
  simp [Fn.from_function, Fn.eq, Fn.addr, addr_of_fn]

/-! ### C21: invocation -/

theorem fn_eq_nullptr_buffer {α β : Type} (self : Fn α β) :
    self.eq_nullptr = self.buffer.eq_nullptr := by
  cases hb : self.buffer <;> simp [Fn.eq_nullptr, StdFunction.eq_nullptr, hb]

/-- The call of a wrapper that holds a target. -/
theorem fn_call_target {α β : Type} (cfg : Config) (self : Fn α β) (arguments : α)
    (hb : self.buffer.eq_nullptr = false) :
    Fn.call cfg self arguments = self.buffer.invoke arguments := by
  simp [Fn.call, hb]

/-- C21: with safety checks enabled, invoking a wrapper panics with
`ERROR_INVALID_MEMORY` if and only if it holds no invocable (`buffer ==
nullptr`), it fails in no other way, and a wrapper that holds an invocable, a
plain function or any other, returns exactly the result of that invocable on
the same arguments. A default-constructed wrapper, a wrapper constructed from
`nullptr` and a wrapper that was assigned `nullptr` hold no invocable. -/
theorem fn_call_spec {α β : Type} (cfg : Config) (self : Fn α β) (arguments : α)
    (hs : cfg.disable_safety = false) :
    (Fn.call cfg self arguments = .panic .ERROR_INVALID_MEMORY ↔ self.eq_nullptr = true) ∧
    ((∃ e, Fn.call cfg self arguments = .panic e) ↔ self.eq_nullptr = true) ∧
    Fn.call cfg self arguments ≠ .bad_function_call ∧
    (self.eq_nullptr = false → Fn.call cfg self arguments = self.buffer.invoke arguments) ∧
    (∀ fn_ptr code, self.buffer = .fnptr fn_ptr code →
      Fn.call cfg self arguments = .ret (code arguments)) ∧
    (∀ code, self.buffer = .closure code →
      Fn.call cfg self arguments = .ret (code arguments)) ∧
    (∀ junk, (Fn.default_construct junk : Fn α β).eq_nullptr = true ∧
      (Fn.from_nullptr junk : Fn α β).eq_nullptr = true) ∧
    self.assign_nullptr.eq_nullptr = true := by
  rw [fn_eq_nullptr_buffer]
  refine ⟨?_, ?_, ?_, ?_, ?_, ?_, ?_, ?_⟩
  · cases hb : self.buffer <;>
      simp [Fn.call, hs, hb, StdFunction.eq_nullptr, StdFunction.invoke]
  · cases hb : self.buffer <;>
      simp [Fn.call, hs, hb, StdFunction.eq_nullptr, StdFunction.invoke]
  · cases hb : self.buffer <;>
      simp [Fn.call, hs, hb, StdFunction.eq_nullptr, StdFunction.invoke]
  · intro hb
    exact fn_call_target cfg self arguments hb
  · intro fn_ptr code hb
    simp [Fn.call, hb, StdFunction.eq_nullptr, StdFunction.invoke]
  · intro code hb
    simp [Fn.call, hb, StdFunction.eq_nullptr, StdFunction.invoke]
  · intro junk
    simp [Fn.default_construct, Fn.from_nullptr, Fn.eq_nullptr]
  · simp [Fn.assign_nullptr, Fn.eq_nullptr]

/-- C21 at concrete inputs: a wrapper constructed from `nullptr` panics, a
wrapper of the closure `n ↦ n + 1` returns 42 on 41. -/
theorem fn_call_spec_witness :
    Config.default_build.disable_safety = false ∧
    Fn.call Config.default_build (Fn.from_nullptr 0 : Fn Nat Nat) 41
      = .panic .ERROR_INVALID_MEMORY ∧
    Fn.call Config.default_build
      (Fn.from_function (StdFunction.closure (fun n : Nat => n + 1)) 8000) 41 = .ret 42 :=
  ⟨rfl,
    (fn_call_spec Config.default_build (Fn.from_nullptr 0 : Fn Nat Nat) 41 rfl).1.2 rfl,
    (fn_call_spec Config.default_build
      (Fn.from_function (StdFunction.closure (fun n : Nat => n + 1)) 8000) 41
      rfl).2.2.2.2.2.1 (fun n : Nat => n + 1) rfl⟩

/-! ### C22: reassignment -/

/-- C22: for every wrapper `f`: after `f = nullptr` the wrapper holds no
invocable (`f == nullptr` is true); after `f = g` for a `std::function` `g`
that holds an invocable, and after `f = g` for a plain function `g`, invoking
`f` returns what `g` returns on the same arguments; and after each of the
three assignments `f.addr()` is the value it was before, so `f == w` and
`w == f` have the truth value they had before, for every wrapper `w`. -/
theorem fn_reassign_spec {α β : Type} (cfg : Config) (f : Fn α β) (g : StdFunction α β)
    (function : Nat) (code : α → β) (arguments : α) :
    f.assign_nullptr.eq_nullptr = true ∧
    (g.eq_nullptr = false →
      Fn.call cfg (f.assign_function g) arguments = g.invoke arguments ∧
      (f.assign_function g).eq_nullptr = false) ∧
    (function ≠ 0 →
      Fn.call cfg (f.assign_plain function code) arguments = .ret (code arguments)) ∧
    f.assign_nullptr.addr = f.addr ∧
    (f.assign_function g).addr = f.addr ∧
    (f.assign_plain function code).addr = f.addr ∧
    (∀ w : Fn α β,
      f.assign_nullptr.eq w = f.eq w ∧ w.eq f.assign_nullptr = w.eq f ∧
      (f.assign_function g).eq w = f.eq w ∧ w.eq (f.assign_function g) = w.eq f ∧
      (f.assign_plain function code).eq w = f.eq w ∧
      w.eq (f.assign_plain function code) = w.eq f) := by
  refine ⟨by simp [Fn.assign_nullptr, Fn.eq_nullptr], ?_, ?_, rfl, rfl, rfl, ?_⟩
  · intro hg
    refine ⟨fn_call_target cfg _ arguments (by simpa [Fn.assign_function] using hg), ?_⟩
    rw [fn_eq_nullptr_buffer]
    simpa [Fn.assign_function] using hg
  · intro hf
    simp [Fn.call, Fn.assign_plain, StdFunction.of_pointer, hf, StdFunction.eq_nullptr,
      StdFunction.invoke]
  · intro w
    simp [Fn.eq, Fn.addr, Fn.assign_nullptr, Fn.assign_function, Fn.assign_plain]

/-- C22 at a concrete input: a wrapper of the plain function at the code
address 4096 is assigned `nullptr` and then a closure; its `addr()` stays
4096. -/
theorem fn_reassign_spec_witness :
    (Fn.from_pointer 4096 (fun n : Nat => n + 1)).assign_nullptr.eq_nullptr = true ∧
    (Fn.from_pointer 4096 (fun n : Nat => n + 1)).assign_nullptr.addr = 4096 ∧
    ((Fn.from_pointer 4096 (fun n : Nat => n + 1)).assign_function
      (StdFunction.closure (fun n : Nat => n + 2))).addr = 4096 ∧
    Fn.call Config.default_build
      ((Fn.from_pointer 4096 (fun n : Nat => n + 1)).assign_function
        (StdFunction.closure (fun n : Nat => n + 2))) 40 = .ret 42 := by
  have hw := fn_reassign_spec Config.default_build
    (Fn.from_pointer 4096 (fun n : Nat => n + 1))
    (StdFunction.closure (fun n : Nat => n + 2)) 4096 (fun n : Nat => n + 1) 40
  exact ⟨hw.1, hw.2.2.2.1, hw.2.2.2.2.1, (hw.2.1 rfl).1⟩

/-! ## `jule::Ref<T>`: C23, drop twice -/

end jule
